import Mathlib

/-!
# Portfolio CMS backend: a shallow embedding of `server.js`

The Express server keeps two JSON files under `cms-data/` (the content document and the
user records), guards mutating routes with a bearer token, and filters uploads by file
type.  Each route handler of `server.js` is embedded as a pure function of the request and
of the files it reads, returning the HTTP response together with the files it leaves
behind.

Conventions of the embedding

* `express.json()` is mounted on the application before the routes.  For the route
  `PUT /api/content/:section` it is embedded (`expressJson`, `putContentRoute`) on
  requests sent with `Content-Type: application/json`: a body over the size limit, a text
  that is not JSON and, in the parser's default strict mode, a top-level scalar are
  answered by the parser before the guard runs.  The guards and handlers themselves are
  embedded for every parsed body `req.body`, a `JVal`.
* The content file, when it parses, holds a JSON object, and the user file an array of
  user records, as the data model has it.
* JSON numbers are integers; fractions are not modelled.  A number in memory is an IEEE
  double: `JSON.parse` reads an integer literal as the nearest double (`roundToDouble`,
  `jsonParse`).
* A parsed JSON object is an association list with first-match lookup; the enumeration
  order JavaScript gives integer-like keys is not modelled, only the mapping is.
* Property reads and writes on the parsed content object follow JavaScript: a read walks
  the prototype chain up to `Object.prototype`, and an assignment to `__proto__` goes to
  the inherited setter.
* `bcryptjs` and `jsonwebtoken` are external packages: the password check and the compact
  token codec are parameters (`Crypto`); `jwt.sign` and `jwt.verify` add the issue time,
  the expiry and the expiry check around the codec.
* Time is the clock in whole seconds (`Math.floor(Date.now() / 1000)`); the upload route
  takes `Date.now()` in milliseconds.
* `multer` is an external package: `upload.single('file')` is embedded for a request with
  at most one file part, in the order the package works (field name, `fileFilter`,
  storage, size limit).  The directory `uploads/` is a list of named files, or absent;
  creating it and writing into it succeed.
* A draw of `Math.random()` is a double `k / 2 ^ 53`; its product with `1E9` is the
  nearest double, as IEEE multiplication gives it, and `Math.round` is applied to that.
* The multipart parser behind `multer` refuses a file once its byte count reaches
  `limits.fileSize`.
* The server is one process with one event loop.  A handler body is a list of statements;
  the event loop runs the statements of one request up to the next point at which the
  handler hands control back (`runTask`), and takes the requests in any order
  (`runSchedule`).
* Of the admin client, the shared axios instance (`utils/api.js`) and the conversions of
  the experience, skills and about editors are embedded as pure functions of the editor
  state and of the response data.
-/

namespace CmsServer

/-! ## JSON values and JavaScript objects -/

/-- JSON value.  A number is an integer; the values `JSON.parse` produces are those whose
numbers are doubles (see `jsonParse`). -/
inductive JVal where
  | null
  | bool (b : Bool)
  | num (n : Int)
  | str (s : String)
  | arr (xs : List JVal)
  | obj (kvs : List (String × JVal))

instance : Inhabited JVal := ⟨JVal.null⟩

/-- The own properties of a parsed JSON object, in order. -/
abbrev Doc := List (String × JVal)

/-- JavaScript truthiness of a JSON value: `null`, `false`, `0` and `""` are falsy,
everything else (every object and every array included) is truthy. -/
def JVal.truthy : JVal → Bool
  | .null => false
  | .bool b => b
  | .num n => decide (n ≠ 0)
  | .str s => decide (s ≠ "")
  | .arr _ => true
  | .obj _ => true

/-- Result of a property read `o[k]` on an in-memory object. -/
inductive JsVal where
  /-- a JSON value held as a data property -/
  | json (v : JVal)
  /-- a built-in function inherited from a prototype -/
  | builtin (name : String)
  /-- the object `Object.prototype` itself -/
  | objectPrototype
  | undefined

/-- JavaScript truthiness of a read result: functions and objects are truthy,
`undefined` is falsy. -/
def JsVal.truthy : JsVal → Bool
  | .json v => v.truthy
  | .builtin _ => true
  | .objectPrototype => true
  | .undefined => false

/-- The prototype of an in-memory object: `Object.prototype` (what `JSON.parse` gives every
object), or a value installed through the `__proto__` setter. -/
inductive Proto where
  | objectPrototype
  | replaced (v : JVal)

/-- An in-memory JavaScript object: own properties plus prototype. -/
structure JsObject where
  own : Doc
  proto : Proto

/-- Names of the function-valued properties of `Object.prototype`. -/
def objectPrototypeFunctions : List String :=
  ["constructor", "__defineGetter__", "__defineSetter__", "hasOwnProperty",
   "__lookupGetter__", "__lookupSetter__", "isPrototypeOf", "propertyIsEnumerable",
   "toString", "valueOf", "toLocaleString"]

/-- Names of the function-valued properties of `Array.prototype`. -/
def arrayPrototypeFunctions : List String :=
  ["at", "concat", "copyWithin", "fill", "find", "findIndex", "findLast", "findLastIndex",
   "lastIndexOf", "pop", "push", "reverse", "shift", "unshift", "slice", "sort", "splice",
   "includes", "indexOf", "join", "keys", "entries", "values", "forEach", "filter", "flat",
   "flatMap", "map", "every", "some", "reduce", "reduceRight", "toReversed", "toSorted",
   "toSpliced", "with", "toLocaleString", "toString", "constructor"]

/-- A data property found on `Object.prototype` under the name `k` (the accessor
`__proto__` is handled by the caller). -/
def inheritedFromObjectPrototype (k : String) : JsVal :=
  if k ∈ objectPrototypeFunctions then .builtin k else .undefined

/-- Own property `k` of a JSON value used as an object: a field of an object, an index
or `length` of an array. -/
def ownProperty (p : JVal) (k : String) : Option JVal :=
  match p with
  | .obj kvs => kvs.lookup k
  | .arr xs =>
    if k = "length" then some (.num xs.length)
    else match (List.range xs.length).find? (fun i => toString i = k) with
      | some i => xs.get? i
      | none => none
  | _ => none

/-- Property read `o[k]`: own properties first, then the prototype chain.  On
`Object.prototype` the name `__proto__` is an accessor whose getter returns the prototype
of the object the read started from. -/
def getProp (o : JsObject) (k : String) : JsVal :=
  match o.own.lookup k with
  | some v => .json v
  | none =>
    match o.proto with
    | .objectPrototype =>
      if k = "__proto__" then .objectPrototype else inheritedFromObjectPrototype k
    | .replaced p =>
      match ownProperty p k with
      | some v => .json v
      | none =>
        match p with
        | .obj _ => if k = "__proto__" then .json p else inheritedFromObjectPrototype k
        | .arr _ =>
          if k = "__proto__" then .json p
          else if k ∈ arrayPrototypeFunctions then .builtin k
          else inheritedFromObjectPrototype k
        | _ => .undefined

/-- Assignment of `v` under key `k` in a list of own properties: the first entry with
that key is overwritten in place, otherwise a new entry is appended. -/
def assignOwn (k : String) (v : JVal) : Doc → Doc
  | [] => [(k, v)]
  | (k', v') :: rest =>
    if k' = k then (k, v) :: rest else (k', v') :: assignOwn k v rest

/-- Whether an assignment to `__proto__` on `o` reaches the setter of
`Object.prototype`: the object has no own property of that name and none of its
prototypes has a data property of that name. -/
def reachesProtoSetter (o : JsObject) : Bool :=
  (o.own.lookup "__proto__").isNone &&
  match o.proto with
  | .objectPrototype => true
  | .replaced (.obj kvs) => (kvs.lookup "__proto__").isNone
  | .replaced (.arr _) => true
  | .replaced _ => false

/-- Assignment `o[k] = v`.  Assigning to `__proto__` through the inherited setter
replaces the prototype when `v` is an object, an array or `null`, and does nothing for any
other value; no own property is created.  Every other assignment writes an own
property. -/
def setProp (o : JsObject) (k : String) (v : JVal) : JsObject :=
  if k = "__proto__" ∧ reachesProtoSetter o = true then
    match v with
    | .obj _ => { o with proto := .replaced v }
    | .arr _ => { o with proto := .replaced v }
    | .null => { o with proto := .replaced v }
    | _ => o
  else { o with own := assignOwn k v o.own }

/-! ## Numbers as doubles, and `JSON.parse` -/

/-- The number of bits by which a natural number exceeds the 53 bits of the significand
of a double: counting up from `e`, the first `e` with `n < 2 ^ (53 + e)`. -/
def excessBits (n : Nat) : Nat → Nat → Nat
  | 0, e => e
  | fuel + 1, e => if n < 2 ^ (53 + e) then e else excessBits n fuel (e + 1)

/-- The IEEE 754 double nearest to the natural number `n`, as a natural number: `n` is
rounded to 53 significant bits, to nearest, a tie going to the even significand. -/
def roundToDouble (n : Nat) : Nat :=
  let e := excessBits n n 0
  let q := n / 2 ^ e
  let r := n % 2 ^ e
  if 2 * r < 2 ^ e ∨ (2 * r = 2 ^ e ∧ q % 2 = 0) then q * 2 ^ e else (q + 1) * 2 ^ e

/-- What `JSON.parse` makes of an integer literal: the nearest double.  A literal whose
nearest double would be `2 ^ 1024` or more (971 bits beyond the 53 of the significand)
reads as `Infinity`, which `JSON.stringify` writes as `null`; the routes only store and
serialise the body, so such a literal is read as `null` at once. -/
def parseNumber (n : Int) : JVal :=
  let r := roundToDouble n.natAbs
  if excessBits r r 0 ≤ 971 then .num (if n < 0 then -(r : Int) else (r : Int)) else .null

mutual
/-- What `JSON.parse` makes of a JSON text, the text being given by its syntax tree
(numbers as written, members in the order written, repeated names included): numbers
become doubles, and of members with the same name the last value stays, at the place of
the first. -/
def jsonParse : JVal → JVal
  | .null => .null
  | .bool b => .bool b
  | .num n => parseNumber n
  | .str s => .str s
  | .arr xs => .arr (jsonParseList xs)
  | .obj kvs => .obj (jsonParseFields [] kvs)
/-- The elements of an array, parsed in turn. -/
def jsonParseList : List JVal → List JVal
  | [] => []
  | x :: xs => jsonParse x :: jsonParseList xs
/-- The members of an object, defined one after the other on the object built so far. -/
def jsonParseFields (acc : Doc) : List (String × JVal) → Doc
  | [] => acc
  | (k, v) :: rest => jsonParseFields (assignOwn k (jsonParse v) acc) rest
end

/-! ## HTTP responses -/

/-- HTTP response: the status code and the JSON body (`none` for an empty body). -/
structure Response where
  status : Nat
  body : Option JVal

/-- Top-level `JSON.stringify` as `res.json` applies it: a function or `undefined` has no
JSON text (the body stays empty), `Object.prototype` has no own enumerable property. -/
def stringifyTop : JsVal → Option JVal
  | .json v => some v
  | .builtin _ => none
  | .objectPrototype => some (.obj [])
  | .undefined => none

/-- An object literal whose property values are read results: `JSON.stringify` leaves out
the properties whose value is a function or `undefined`. -/
def objectLiteral (fields : List (String × JsVal)) : JVal :=
  .obj (fields.filterMap (fun kv => (stringifyTop kv.2).map (fun v => (kv.1, v))))

/-- Response of `res.json(x)` with the default status 200. -/
def resJson (x : JsVal) : Response :=
  { status := 200, body := stringifyTop x }

/-- Response of `res.status(code).json({ error: msg })`. -/
def resError (code : Nat) (msg : String) : Response :=
  { status := code, body := some (.obj [("error", .str msg)]) }

/-! ## The files under `cms-data/` -/

/-- User record of `users.json`. -/
structure User where
  id : Int
  username : String
  email : String
  password : String
  role : String
  deriving DecidableEq

/-- State of one JSON file on disk.  `corrupt` is a file that exists but whose text
`JSON.parse` refuses. -/
inductive JsonFile (α : Type) where
  | missing
  | corrupt (text : String)
  | holds (a : α)

/-- The data directory: `content.json` (a mapping from section name to value),
`users.json` (an array of user records), and whether a write to the directory goes
through. -/
structure Disk where
  contentFile : JsonFile Doc
  usersFile : JsonFile (List User)
  writable : Bool

/-- Result of `fs.readJsonSync(file)`: `none` stands for a thrown error (file missing or
not parseable). -/
def readJsonSync {α : Type} : JsonFile α → Option α
  | .missing => none
  | .corrupt _ => none
  | .holds a => some a

/-- Effect of `fs.writeJsonSync(CONTENT_FILE, doc, ...)`: `none` stands for a thrown error,
which leaves the directory as it was. -/
def writeJsonSync (disk : Disk) (doc : Doc) : Option Disk :=
  if disk.writable then some { disk with contentFile := .holds doc } else none

/-- Source `getContent`: the parsed content file, or the empty object when reading
throws. -/
def getContent (disk : Disk) : JsObject :=
  match readJsonSync disk.contentFile with
  | some doc => { own := doc, proto := .objectPrototype }
  | none => { own := [], proto := .objectPrototype }

/-- Source `saveContent`: writes the own enumerable properties of `content` (what
`JSON.stringify` serialises) and reports whether the write went through. -/
def saveContent (disk : Disk) (content : JsObject) : Bool × Disk :=
  match writeJsonSync disk content.own with
  | some disk' => (true, disk')
  | none => (false, disk)

/-! ## Content routes -/

/-- Handler of `GET /api/content`. -/
def getContentAll (disk : Disk) : Response :=
  resJson (.json (.obj (getContent disk).own))

/-- Handler of `GET /api/content/:section`: answers with `content[section]` when that
read is truthy and with 404 otherwise. -/
def getContentSection (disk : Disk) (sectionName : String) : Response :=
  let content := getContent disk
  if (getProp content sectionName).truthy then
    resJson (getProp content sectionName)
  else
    resError 404 "Section not found"

/-- Handler of `PUT /api/content/:section`, behind the authentication guard:
`content[section] = req.body`, then `saveContent`.  Nothing in the `try` block throws, so
the `catch` branch of the source has no counterpart. -/
def putContentSectionHandler (disk : Disk) (sectionName : String) (body : JVal) :
    Response × Disk :=
  let content := setProp (getContent disk) sectionName body
  match saveContent disk content with
  | (true, disk') =>
    (resJson (.json (objectLiteral
      [("message", .json (.str "Content updated successfully")),
       ("data", getProp content sectionName)])), disk')
  | (false, disk') => (resError 500 "Failed to save content", disk')

/-! ## Strings -/

/-- Worker of `jsSplit`: `cur` is the current piece, reversed. -/
def jsSplitAux (sep : Char) : List Char → List Char → List (List Char)
  | [], cur => [cur.reverse]
  | c :: cs, cur =>
    if c = sep then cur.reverse :: jsSplitAux sep cs [] else jsSplitAux sep cs (c :: cur)

/-- JavaScript `s.split(sep)` for a one-character separator. -/
def jsSplit (sep : Char) (s : String) : List String :=
  (jsSplitAux sep s.data []).map String.mk

/-- Decimal value of a non-empty string of digits. -/
def digitsToNat (cs : List Char) : Option Nat :=
  if cs = [] ∨ cs.all Char.isDigit = false then none
  else some (cs.foldl (fun n c => 10 * n + (c.toNat - 48)) 0)

/-! ## Tokens -/

/-- Payload of an issued token: what the login handler passes to `jwt.sign`, plus the
claims `iat` and `exp` the package adds. -/
structure Claims where
  id : Int
  username : String
  role : String
  iat : Nat
  exp : Nat
  deriving DecidableEq

/-- The parts of `bcryptjs` and `jsonwebtoken` the server relies on.
`bcryptCheck plain hash` decides whether `plain` matches the salted hash;
`jwsEncode claims secret` is the signed compact serialisation;
`jwsDecode token secret` checks the signature and parses the payload. -/
structure Crypto where
  bcryptCheck : String → String → Bool
  jwsEncode : Claims → String → String
  jwsDecode : String → String → Option Claims

/-- Source constant `JWT_SECRET`: `process.env.JWT_SECRET || default`. -/
def JWT_SECRET (envSecret : Option String) : String :=
  match envSecret with
  | some s => if s = "" then "your-secret-key-change-in-production" else s
  | none => "your-secret-key-change-in-production"

/-- Seconds in one unit of a timespan string. -/
def unitSeconds : List Char → Option Nat
  | ['s'] => some 1
  | ['m'] => some 60
  | ['h'] => some 3600
  | ['d'] => some 86400
  | ['w'] => some 604800
  | _ => none

/-- Timespan strings of the form digits-then-unit, as `jsonwebtoken` reads `expiresIn`,
in seconds. -/
def timespan (s : String) : Option Nat :=
  match digitsToNat (s.data.takeWhile Char.isDigit),
        unitSeconds (s.data.dropWhile Char.isDigit) with
  | some n, some k => some (n * k)
  | _, _ => none

/-- Package call `jwt.sign(payload, secret, { expiresIn })` at clock `now`: the
payload gets `iat = now` and `exp = now + expiresIn`; `none` stands for a thrown error. -/
def jwtSign (lib : Crypto) (id : Int) (username role : String) (secret expiresIn : String)
    (now : Nat) : Option String :=
  match timespan expiresIn with
  | none => none
  | some d =>
    some (lib.jwsEncode
      { id := id, username := username, role := role, iat := now, exp := now + d } secret)

/-- Reasons `jwt.verify` fails. -/
inductive JwtError where
  /-- malformed token or bad signature (`JsonWebTokenError`) -/
  | invalid
  /-- the clock has reached `exp` (`TokenExpiredError`) -/
  | expired
  deriving DecidableEq

/-- Package call `jwt.verify(token, secret, cb)` at clock `now`. -/
def jwtVerify (lib : Crypto) (token secret : String) (now : Nat) : Except JwtError Claims :=
  match lib.jwsDecode token secret with
  | none => .error .invalid
  | some c => if now ≥ c.exp then .error .expired else .ok c

/-- What the authentication middleware does with a request: it answers it itself, or it
sets `req.user` and calls `next()`. -/
inductive AuthOutcome where
  | reject (res : Response)
  | next (user : Claims)

/-- Source `authenticateToken`.  `authHeader` is `req.headers['authorization']`. -/
def authenticateToken (lib : Crypto) (envSecret : Option String) (now : Nat)
    (authHeader : Option String) : AuthOutcome :=
  let token : Option String :=
    match authHeader with
    | none => none
    | some h => if h = "" then some "" else (jsSplit ' ' h).get? 1
  match token with
  | none => .reject (resError 401 "Access token required")
  | some t =>
    if t = "" then .reject (resError 401 "Access token required")
    else
      match jwtVerify lib t (JWT_SECRET envSecret) now with
      | .error _ => .reject (resError 403 "Invalid or expired token")
      | .ok user => .next user

/-- Request to `PUT /api/content/:section`. -/
structure PutRequest where
  authorization : Option String
  sectionName : String
  body : JVal

/-- The middleware chain `app.put('/api/content/:section', authenticateToken, handler)`,
for a request whose body the JSON body parser has let through: the authentication guard,
then the handler.  `req.body` is the parsed body. -/
def putContentSection (lib : Crypto) (envSecret : Option String) (now : Nat) (disk : Disk)
    (req : PutRequest) : Response × Disk :=
  match authenticateToken lib envSecret now req.authorization with
  | .reject res => (res, disk)
  | .next _ => putContentSectionHandler disk req.sectionName req.body

/-- Body of a request sent with `Content-Type: application/json`, as the body parser
`express.json()` meets it. -/
inductive RequestBody where
  /-- longer than the parser's limit of 100 kB (102400 bytes) -/
  | tooLarge
  /-- no characters at all -/
  | empty
  /-- some characters that are not a JSON text -/
  | malformed
  /-- the text of the JSON value `value`, given by its syntax tree -/
  | json (value : JVal)

/-- Whether the text of a JSON value starts with `{` or `[`: the value is an object or an
array. -/
def JVal.isObjectOrArray : JVal → Bool
  | .obj _ => true
  | .arr _ => true
  | _ => false

/-- Response of the default error handler of Express to an error the body parser raises
with the status `code`; its body is an HTML page, not JSON. -/
def parserError (code : Nat) : Response :=
  { status := code, body := none }

/-- Middleware `express.json()` with its default options: a body over the size limit is
answered 413; an empty body is read as `{}`; in strict mode a text that does not start
with `{` or `[` is answered 400, and so is a text `JSON.parse` refuses; otherwise
`req.body` is what `JSON.parse` returns. -/
def expressJson : RequestBody → Except Response JVal
  | .tooLarge => .error (parserError 413)
  | .empty => .ok (.obj [])
  | .malformed => .error (parserError 400)
  | .json value =>
    if value.isObjectOrArray then .ok (jsonParse value) else .error (parserError 400)

/-- Request to `PUT /api/content/:section` as it arrives: the body is still text. -/
structure RawPutRequest where
  authorization : Option String
  sectionName : String
  body : RequestBody

/-- Route `PUT /api/content/:section` as the application serves it: `express.json()`,
mounted on the application before the routes, then the guard, then the handler. -/
def putContentRoute (lib : Crypto) (envSecret : Option String) (now : Nat) (disk : Disk)
    (req : RawPutRequest) : Response × Disk :=
  match expressJson req.body with
  | .error res => (res, disk)
  | .ok body =>
    putContentSection lib envSecret now disk
      { authorization := req.authorization, sectionName := req.sectionName, body := body }

/-! ## Login -/

/-- One name of the destructuring `const { username, password } = req.body`:
`none` at the outer level stands for the `TypeError` thrown on `null`; the inner `none` is
`undefined`. -/
def bodyField (body : JVal) (k : String) : Option (Option JVal) :=
  match body with
  | .null => none
  | .obj kvs => some (kvs.lookup k)
  | _ => some none

/-- Strict equality `u.username === username` of a stored string with a request value. -/
def strictEqStr (stored : String) (x : Option JVal) : Bool :=
  match x with
  | some (.str s) => decide (stored = s)
  | _ => false

/-- Package call `await bcrypt.compare(s, hash)`: the promise is rejected (`none`) when
`s` is not a string. -/
def bcryptCompare (lib : Crypto) (s : Option JVal) (hash : String) : Option Bool :=
  match s with
  | some (.str p) => some (lib.bcryptCheck p hash)
  | _ => none

/-- Body of a successful login. -/
def loginSuccessBody (token : String) (u : User) : JVal :=
  .obj [("token", .str token),
        ("user", .obj [("id", .num u.id), ("username", .str u.username),
                       ("email", .str u.email), ("role", .str u.role)])]

/-- The `try` block of the login handler; `none` stands for a thrown error. -/
def loginTry (lib : Crypto) (envSecret : Option String) (now : Nat) (disk : Disk)
    (body : JVal) : Option Response :=
  match bodyField body "username", bodyField body "password" with
  | some username, some password =>
    match readJsonSync disk.usersFile with
    | none => none
    | some users =>
      match users.find? (fun u => strictEqStr u.username username) with
      | none => some (resError 401 "Invalid credentials")
      | some user =>
        match bcryptCompare lib password user.password with
        | none => none
        | some false => some (resError 401 "Invalid credentials")
        | some true =>
          match jwtSign lib user.id user.username user.role (JWT_SECRET envSecret) "24h" now with
          | none => none
          | some token => some (resJson (.json (loginSuccessBody token user)))
  | _, _ => none

/-- Handler of `POST /api/auth/login`: whatever is thrown inside the `try` block is
answered with 500. -/
def postAuthLogin (lib : Crypto) (envSecret : Option String) (now : Nat) (disk : Disk)
    (body : JVal) : Response :=
  match loginTry lib envSecret now disk body with
  | some res => res
  | none => resError 500 "Server error"

/-! ## Upload filter -/

/-- The fields of a multer file object the filter reads. -/
structure UploadFile where
  fieldname : String
  originalname : String
  mimetype : String

/-- Node `path.extname` (POSIX flavour) on characters: the text from the last dot of the
last path component, empty when there is no dot, when the dot opens the component, or when
the component is `..`. -/
def extnameChars (p : List Char) : List Char :=
  let rb := (p.reverse.dropWhile (fun c => c = '/')).takeWhile (fun c => c ≠ '/')
  let revExt := rb.takeWhile (fun c => c ≠ '.')
  match rb.dropWhile (fun c => c ≠ '.') with
  | [] => []
  | _ :: before =>
    if before = [] then []
    else if before.all (fun c => c = '.') ∧ revExt = [] ∧ before.length = 1 then []
    else '.' :: revExt.reverse

/-- Node `path.extname`. -/
def extname (p : String) : String :=
  String.mk (extnameChars p.data)

/-- JavaScript `toLowerCase` on the ASCII range. -/
def toLowerCase (s : String) : String :=
  String.mk (s.data.map Char.toLower)

/-- Whether `w` occurs in the text as a contiguous run. -/
def occursIn (w : List Char) : List Char → Bool
  | [] => w.isEmpty
  | c :: cs => w.isPrefixOf (c :: cs) || occursIn w cs

/-- The alternatives of the source regular expression
`/jpeg|jpg|png|gif|pdf|doc|docx/`. -/
def allowedTypes : List String :=
  ["jpeg", "jpg", "png", "gif", "pdf", "doc", "docx"]

/-- Source `allowedTypes.test(s)`: the expression is not anchored, so it matches when one
alternative occurs anywhere in `s`. -/
def allowedTypesTest (s : String) : Bool :=
  allowedTypes.any (fun w => occursIn w.data s.data)

/-- Verdict the filter hands to its callback. -/
inductive FilterVerdict where
  /-- the call `cb(null, true)` -/
  | accept
  /-- the call `cb(new Error(msg))` -/
  | reject (msg : String)
  deriving DecidableEq

/-- Source `fileFilter` of the multer configuration. -/
def fileFilter (file : UploadFile) : FilterVerdict :=
  let extnameOk := allowedTypesTest (toLowerCase (extname file.originalname))
  let mimetypeOk := allowedTypesTest file.mimetype
  if mimetypeOk && extnameOk then .accept
  else .reject "Only images and documents are allowed"

/-! ## The default document -/

/-- Source constant `defaultContent` of `initializeDefaultContent`. -/
def defaultContent : Doc :=
  [("hero", .obj
      [("name", .str "Rahul Thakur"),
       ("title", .str ".NET Angular Developer & AI Engineer"),
       ("description", .str "Dynamic and results-driven developer with expertise in .NET technologies and Angular framework. Currently contributing to critical software solutions at IIT Mandi, delivering scalable and user-centric applications."),
       ("stats", .obj [("experience", .num 5), ("projects", .num 50), ("clients", .num 100)])]),
   ("about", .obj
      [("overview", .str "I am a passionate and experienced .NET Angular Developer with a strong background in full-stack development and AI engineering. With over 5 years of experience in the industry, I specialize in creating robust, scalable web applications using cutting-edge technologies."),
       ("details", .obj
          [("name", .str "Rahul Thakur"), ("experience", .str "5+ Years"),
           ("location", .str "India"), ("availability", .str "Open to Opportunities")]),
       ("education", .arr
          [.obj [("title", .str "Bachelor's in Computer Science"),
                 ("institution", .str "University Name"), ("period", .str "2015-2019")],
           .obj [("title", .str "Microsoft Certified Developer"),
                 ("institution", .str "Azure & .NET Technologies"), ("period", .str "")]])]),
   ("skills", .arr
      [.obj [("category", .str "Backend Development"), ("icon", .str "fas fa-server"),
             ("skills", .arr
                [.obj [("name", .str "ASP.NET Core"), ("level", .num 95), ("proficiency", .str "Expert")],
                 .obj [("name", .str "C#"), ("level", .num 90), ("proficiency", .str "Expert")],
                 .obj [("name", .str "Entity Framework"), ("level", .num 85), ("proficiency", .str "Advanced")],
                 .obj [("name", .str "Web API"), ("level", .num 88), ("proficiency", .str "Advanced")]])],
       .obj [("category", .str "Frontend Development"), ("icon", .str "fas fa-laptop-code"),
             ("skills", .arr
                [.obj [("name", .str "Angular"), ("level", .num 92), ("proficiency", .str "Expert")],
                 .obj [("name", .str "TypeScript"), ("level", .num 88), ("proficiency", .str "Advanced")],
                 .obj [("name", .str "HTML5/CSS3"), ("level", .num 90), ("proficiency", .str "Expert")],
                 .obj [("name", .str "JavaScript"), ("level", .num 85), ("proficiency", .str "Advanced")]])]]),
   ("projects", .arr []),
   ("experience", .arr []),
   ("testimonials", .arr []),
   ("contact", .obj
      [("email", .str "rahulthakurhm@gmail.com"), ("phone", .str "+919501893704"),
       ("github", .str "https://github.com/9501893704rahul"), ("linkedin", .str ""),
       ("location", .str "India")])]

/-! ## Initialization -/

/-- Node `fs.existsSync` on a JSON file. -/
def existsSync {α : Type} : JsonFile α → Bool
  | .missing => false
  | .corrupt _ => true
  | .holds _ => true

/-- Effect of `fs.writeJsonSync(USERS_FILE, users, ...)`: `none` stands for a thrown error,
which leaves the directory as it was. -/
def writeUsersJsonSync (disk : Disk) (users : List User) : Option Disk :=
  if disk.writable then some { disk with usersFile := .holds users } else none

/-- Source `initializeDefaultContent`; `none` stands for a thrown error. -/
def initializeDefaultContent (disk : Disk) : Option Disk :=
  if existsSync disk.contentFile = false then writeJsonSync disk defaultContent
  else some disk

/-- Package call `bcrypt.hash(plain, rounds)`: the result as a function of the plaintext,
the cost and the salt the package draws. -/
abbrev BcryptHash := String → Nat → Nat → String

/-- Source constant `defaultUsers` of `initializeDefaultUser`. -/
def defaultUsers (hashedPassword : String) : List User :=
  [{ id := 1, username := "admin", email := "admin@rahulthakur.dev",
     password := hashedPassword, role := "admin" }]

/-- Source `initializeDefaultUser`; `salt` is the salt `bcrypt.hash` draws, `none` stands
for a thrown error. -/
def initializeDefaultUser (bcryptHash : BcryptHash) (salt : Nat) (disk : Disk) :
    Option Disk :=
  if existsSync disk.usersFile = false then
    let hashedPassword := bcryptHash "admin123" 10 salt
    writeUsersJsonSync disk (defaultUsers hashedPassword)
  else some disk

/-- Source `startServer`, up to the call of `app.listen`: both initializers in turn;
`none` stands for the `catch` branch, in which the server does not start. -/
def startServer (bcryptHash : BcryptHash) (salt : Nat) (disk : Disk) : Option Disk :=
  match initializeDefaultContent disk with
  | none => none
  | some disk' => initializeDefaultUser bcryptHash salt disk'

/-! ## Upload route -/

/-- Source `limits.fileSize` of the multer configuration. -/
def fileSizeLimit : Nat := 10 * 1024 * 1024

/-- How the multipart parser behind `multer` (busboy 1.x, with multer 1.4.5-lts.1) applies
`limits.fileSize`: it counts the bytes of the file as they arrive and, when the count
reaches the limit, marks the file as truncated, on which `multer` fails the upload with
"File too large".  A file passes when its size stays below the limit. -/
def withinFileSizeLimit (size : Nat) : Bool :=
  decide (size < fileSizeLimit)

/-- Source `Math.round(Math.random() * 1E9)`, the draw being the double `k / 2 ^ 53` in
`[0, 1)`.  The product of the two doubles is the double nearest to `k * 10 ^ 9 / 2 ^ 53`,
that is `roundToDouble (k * 10 ^ 9) / 2 ^ 53`; `Math.round` then takes the nearest
integer, halves upwards. -/
def randomSuffix (k : Nat) : Nat :=
  (2 * roundToDouble (k * 10 ^ 9) + 2 ^ 53) / 2 ^ 54

/-- Source `uniqueSuffix`: `Date.now() + '-' + Math.round(Math.random() * 1E9)`. -/
def uniqueSuffix (nowMs k : Nat) : String :=
  toString nowMs ++ "-" ++ toString (randomSuffix k)

/-- Source `storage.filename`. -/
def storageFilename (nowMs k : Nat) (file : UploadFile) : String :=
  file.fieldname ++ "-" ++ uniqueSuffix nowMs k ++ extname file.originalname

/-- Contents of a directory: file name and bytes. -/
abbrev DirEntries := List (String × List Nat)

/-- The directory `uploads/`: `none` when it does not exist. -/
abbrev UploadDir := Option DirEntries

/-- Source `storage.destination`: `fs.ensureDirSync(uploadPath)` creates the directory
when it is absent. -/
def ensureDirSync (dir : UploadDir) : DirEntries :=
  match dir with
  | none => []
  | some entries => entries

/-- Writing a file into a directory: a file of that name is overwritten. -/
def writeFile (name : String) (bytes : List Nat) : DirEntries → DirEntries
  | [] => [(name, bytes)]
  | (n, b) :: rest =>
    if n = name then (name, bytes) :: rest else (n, b) :: writeFile name bytes rest

/-- Removing a file from a directory. -/
def removeFile (name : String) (entries : DirEntries) : DirEntries :=
  entries.filter (fun e => decide (e.1 ≠ name))

/-- One file part of a multipart request. -/
structure FilePart where
  file : UploadFile
  content : List Nat

/-- The fields of `req.file` the handler reads. -/
structure StoredFile where
  filename : String
  originalname : String
  size : Nat

/-- Middleware `upload.single('file')`: a part without a file name is skipped; a part
under another field name, a part the filter refuses and a part that reaches the size
limit end in an error (`Except.error`, handed to `next(err)`); otherwise the directory is
ensured, the file is written under the generated name and `req.file` is set.  A file that
reaches the limit is removed again after the directory has been ensured. -/
def uploadSingle (nowMs k : Nat) (dir : UploadDir) (part : Option FilePart) :
    Except String (Option StoredFile) × UploadDir :=
  match part with
  | none => (.ok none, dir)
  | some p =>
    if p.file.originalname = "" then (.ok none, dir)
    else if p.file.fieldname ≠ "file" then (.error "Unexpected field", dir)
    else
      match fileFilter p.file with
      | .reject msg => (.error msg, dir)
      | .accept =>
        let entries := ensureDirSync dir
        let filename := storageFilename nowMs k p.file
        if withinFileSizeLimit p.content.length then
          (.ok (some { filename := filename, originalname := p.file.originalname,
                       size := p.content.length }),
           some (writeFile filename p.content entries))
        else
          (.error "File too large", some (removeFile filename entries))

/-- Handler of `POST /api/upload`, behind the guard and the multer middleware. -/
def postUploadHandler (file : Option StoredFile) : Response :=
  match file with
  | none => resError 400 "No file uploaded"
  | some f =>
    resJson (.json (.obj
      [("message", .str "File uploaded successfully"),
       ("filename", .str f.filename),
       ("originalName", .str f.originalname),
       ("url", .str ("/uploads/" ++ f.filename)),
       ("size", .num f.size)]))

/-- Request to `POST /api/upload`. -/
structure UploadRequest where
  authorization : Option String
  part : Option FilePart

/-- How a route ends: with a response of its own, or with an error handed to the default
error handler of Express. -/
inductive RouteOutcome where
  | respond (res : Response)
  | error (msg : String)

/-- Route `POST /api/upload`: the authentication guard, then `upload.single('file')`,
then the handler.  `nowMs` is `Date.now()`. -/
def postUpload (lib : Crypto) (envSecret : Option String) (nowMs k : Nat) (dir : UploadDir)
    (req : UploadRequest) : RouteOutcome × UploadDir :=
  match authenticateToken lib envSecret (nowMs / 1000) req.authorization with
  | .reject res => (.respond res, dir)
  | .next _ =>
    match uploadSingle nowMs k dir req.part with
    | (.error msg, dir') => (.error msg, dir')
    | (.ok file, dir') => (.respond (postUploadHandler file), dir')

/-! ## Concurrent writes -/

/-- One authorized write request that has passed the guard: the section name and the
parsed body. -/
structure WriteTask where
  sectionName : String
  body : JVal

/-- The data directory after running whole write handlers one after the other. -/
def runTasks (disk : Disk) : List WriteTask → Disk
  | [] => disk
  | t :: rest => runTasks (putContentSectionHandler disk t.sectionName t.body).2 rest

/-- One statement of a handler body, as the event loop of the server process sees it. -/
inductive Stmt where
  /-- `const content = getContent()`: the synchronous read of the content file -/
  | readContent
  /-- `content[section] = req.body` -/
  | assignSection
  /-- `saveContent(content)`, the synchronous write-back, with the response sent on its
  result -/
  | writeBack
  /-- a point at which the handler hands control back to the event loop: an `await`, or
  the return before the callback of an asynchronous call -/
  | yield
  deriving DecidableEq

/-- The `try` block of the handler of `PUT /api/content/:section`, statement by statement
(server.js, lines 240 to 249): `getContent` and `saveContent` use `readJsonSync` and
`writeJsonSync`, and there is no `await` and no callback, so the body contains no
`yield`. -/
def putHandlerBody : List Stmt :=
  [.readContent, .assignSection, .writeBack]

/-- A request in flight: the request, the handler's local `content`, the response once
sent, and the statements the handler has still to run. -/
structure InFlight where
  request : WriteTask
  content : JsObject
  response : Option Response
  remaining : List Stmt

/-- One statement of the handler run on behalf of a request in flight. -/
def execStmt (disk : Disk) (r : InFlight) : Stmt → Disk × InFlight
  | .readContent => (disk, { r with content := getContent disk })
  | .assignSection =>
    (disk, { r with content := setProp r.content r.request.sectionName r.request.body })
  | .writeBack =>
    match saveContent disk r.content with
    | (true, disk') =>
      (disk', { r with response := some (resJson (.json (objectLiteral
        [("message", .json (.str "Content updated successfully")),
         ("data", getProp r.content r.request.sectionName)]))) })
    | (false, disk') =>
      (disk', { r with response := some (resError 500 "Failed to save content") })
  | .yield => (disk, r)

/-- One task of the event loop: the statements of a request in flight are run, without
any other code in between, up to the next `yield` or to the end of the body. -/
def runTask (disk : Disk) (r : InFlight) : List Stmt → Disk × InFlight
  | [] => (disk, { r with remaining := [] })
  | .yield :: rest => (disk, { r with remaining := rest })
  | .readContent :: rest =>
    runTask (execStmt disk r .readContent).1 (execStmt disk r .readContent).2 rest
  | .assignSection :: rest =>
    runTask (execStmt disk r .assignSection).1 (execStmt disk r .assignSection).2 rest
  | .writeBack :: rest =>
    runTask (execStmt disk r .writeBack).1 (execStmt disk r .writeBack).2 rest

/-- The server process with two requests in flight. -/
structure LoopState where
  disk : Disk
  first : InFlight
  second : InFlight

/-- Two requests arrive at handlers with the body `body`; neither has run yet.  The local
`content` is not initialised before the handler assigns it; it starts as the empty
object. -/
def startTwo (body : List Stmt) (disk : Disk) (a b : WriteTask) : LoopState :=
  { disk := disk
    first := { request := a, content := { own := [], proto := .objectPrototype },
               response := none, remaining := body }
    second := { request := b, content := { own := [], proto := .objectPrototype },
                response := none, remaining := body } }

/-- One turn of the event loop: it picks one of the two requests (`false` the first,
`true` the second) and runs its next task; a request that has finished has none. -/
def loopStep (st : LoopState) (pick : Bool) : LoopState :=
  if pick then
    { st with disk := (runTask st.disk st.second st.second.remaining).1
              second := (runTask st.disk st.second st.second.remaining).2 }
  else
    { st with disk := (runTask st.disk st.first st.first.remaining).1
              first := (runTask st.disk st.first st.first.remaining).2 }

/-- The server process after the event loop has taken the turns `picks`, in whatever
order it interleaves the tasks of the two requests. -/
def runSchedule (st : LoopState) (picks : List Bool) : LoopState :=
  picks.foldl loopStep st

/-- Both requests have run their handler to the end. -/
def LoopState.bothDone (st : LoopState) : Prop :=
  st.first.remaining = [] ∧ st.second.remaining = []

/-- The states the server process can be in while two requests run the source's handler
body: each request has either not started or finished, and the data directory is what the
finished handlers, run whole and one after the other, leave behind. -/
def Serialised (disk : Disk) (a b : WriteTask) (st : LoopState) : Prop :=
  st.first.request = a ∧ st.second.request = b ∧
  ((st.first.remaining = putHandlerBody ∧ st.second.remaining = putHandlerBody ∧
      st.disk = disk) ∨
   (st.first.remaining = [] ∧ st.second.remaining = putHandlerBody ∧
      st.disk = runTasks disk [a]) ∨
   (st.first.remaining = putHandlerBody ∧ st.second.remaining = [] ∧
      st.disk = runTasks disk [b]) ∨
   (st.first.remaining = [] ∧ st.second.remaining = [] ∧
      (st.disk = runTasks disk [a, b] ∨ st.disk = runTasks disk [b, a])))

/-- A variant of the handler body that is not the source's: it hands control back to the
event loop between its read and its write-back, as a handler reading the file
asynchronously would.  It serves to compare the source's body with. -/
def yieldingHandlerBody : List Stmt :=
  [.readContent, .yield, .assignSection, .writeBack]

/-! ## The admin client: the shared axios instance (`utils/api.js`) -/

/-- Source constant `API_BASE_URL`: the page origin in production, the local server
otherwise. -/
def API_BASE_URL (production : Bool) (origin : String) : String :=
  if production then origin else "http://localhost:12000"

/-- The `baseURL` option of `axios.create`. -/
def baseURL (production : Bool) (origin : String) : String :=
  API_BASE_URL production origin ++ "/api"

/-- Text without its trailing `/` or `//` (the replacement `/\/?\/$/` of axios). -/
def dropTrailingSlashes (cs : List Char) : List Char :=
  match cs.reverse with
  | '/' :: '/' :: rest => rest.reverse
  | '/' :: rest => rest.reverse
  | _ => cs

/-- Package function `combineURLs` of axios, applied to every request path that is not an
absolute URL: the base without trailing slashes, one slash, the path without leading
slashes. -/
def combineURLs (base relativeURL : String) : String :=
  if relativeURL = "" then base
  else String.mk (dropTrailingSlashes base.data) ++ "/"
    ++ String.mk (relativeURL.data.dropWhile (fun c => c = '/'))

/-- The editor pages of the admin panel. -/
inductive Editor where
  | hero | about | skills | projects | experience | testimonials | contact | settings
  deriving DecidableEq

/-- The content section each editor page edits. -/
def Editor.sectionName : Editor → String
  | .hero => "hero"
  | .about => "about"
  | .skills => "skills"
  | .projects => "projects"
  | .experience => "experience"
  | .testimonials => "testimonials"
  | .contact => "contact"
  | .settings => "settings"

/-- Source `contentAPI.getSection` and `contentAPI.updateSection`: the path
`/content/${section}`. -/
def contentAPIPath (sectionName : String) : String :=
  "/content/" ++ sectionName

/-- The path each editor page passes to the shared client, for its read (`api.get`) and,
identically, for its write (`api.put`). -/
def Editor.requestPath : Editor → String
  | .hero => contentAPIPath "hero"
  | .about => "/api/content/about"
  | .skills => "/api/content/skills"
  | .projects => "/api/content/projects"
  | .experience => "/content/experience"
  | .testimonials => "/api/content/testimonials"
  | .contact => "/api/content/contact"
  | .settings => "/api/content/settings"

/-- The URL an editor page's content request goes to. -/
def Editor.requestUrl (production : Bool) (origin : String) (e : Editor) : String :=
  combineURLs (baseURL production origin) e.requestPath

/-- The URL of the server route `/api/content/:section` for a section. -/
def contentRouteUrl (production : Bool) (origin : String) (sectionName : String) : String :=
  API_BASE_URL production origin ++ "/api/content/" ++ sectionName

/-- What the response interceptor touches: two entries of `localStorage` and the page
location. -/
structure ClientState where
  authToken : Option String
  user : Option String
  href : String
  deriving DecidableEq

/-- Source response interceptor, error branch ("Handle auth errors"); `status` is
`error.response?.status`. -/
def onResponseError (st : ClientState) (status : Option Nat) : ClientState :=
  if status = some 401 then { authToken := none, user := none, href := "/admin/login" }
  else st

/-- The response interceptor on a server response: axios takes a status outside
200..299 to the error branch. -/
def interceptResponse (st : ClientState) (res : Response) : ClientState :=
  if 200 ≤ res.status ∧ res.status < 300 then st else onResponseError st (some res.status)

/-! ## The admin client: experience editor -/

/-- Own enumerable properties of a value, as object spread and `Object.keys` see them. -/
def spreadProps : JVal → Doc
  | .obj kvs => kvs
  | .arr xs => ((List.range xs.length).zip xs).map (fun p => (toString p.1, p.2))
  | .str s =>
    ((List.range s.data.length).zip s.data).map
      (fun p => (toString p.1, JVal.str (String.singleton p.2)))
  | _ => []

/-- Source object literal of `saveAllExperiences`, with `exp.id` written under `id` after
the spread of `exp`; an `id` that is `undefined` is left out of the JSON text. -/
def experienceToSave (exp : JVal) : JVal :=
  match ownProperty exp "id" with
  | some v => .obj (assignOwn "id" v (spreadProps exp))
  | none => .obj (spreadProps exp)

/-- Source `experienceData` of `saveAllExperiences`: the body of the `PUT`. -/
def saveAllExperiencesBody (experiences : List JVal) : JVal :=
  .obj [("experiences", .arr (experiences.map experienceToSave))]

/-- Source object literal of `fetchExperienceContent`:
`id: exp.id || Date.now() + index` first, then the spread of `exp`. -/
def experienceWithId (nowMs index : Nat) (exp : JVal) : JVal :=
  let id : JVal :=
    match ownProperty exp "id" with
    | some v => if v.truthy then v else .num (nowMs + index)
    | none => .num (nowMs + index)
  .obj ((spreadProps exp).foldl (fun acc kv => assignOwn kv.1 kv.2 acc) [("id", id)])

/-- Source `experienceArray` of `fetchExperienceContent` for the response data `data`:
anything that is not an array gives the empty list. -/
def fetchExperienceArray (nowMs : Nat) (data : JVal) : List JVal :=
  match data with
  | .arr xs => ((List.range xs.length).zip xs).map (fun p => experienceWithId nowMs p.1 p.2)
  | _ => []

/-- The list `fetchExperienceContent` puts in the editor state for a server response;
`none` when the request fails (the `catch` branch leaves the state alone).  An empty body
is data that is not an array. -/
def fetchExperienceContent (nowMs : Nat) (res : Response) : Option (List JVal) :=
  if 200 ≤ res.status ∧ res.status < 300 then
    match res.body with
    | some data => some (fetchExperienceArray nowMs data)
    | none => some []
  else none

/-! ## The admin client: skills editor -/

/-- A skill of the editor state; a field that is `undefined` is `none`.  The `id`
(`Date.now() + Math.random()`) is a number that plays no part in what is saved. -/
structure Skill where
  id : Nat
  category : String
  name : Option JVal
  level : Option JVal
  percentage : Option JVal

/-- Source constant `skillCategories`. -/
def skillCategories : List String :=
  ["Backend Development", "Frontend Development", "Database & Cloud",
   "AI & Development Tools", "Other"]

/-- Source `getLevelPercentage`: the table entry of the level, 50 for a level without an
entry.  (A level naming a built-in property of the table object is not modelled.) -/
def getLevelPercentage (level : Option JVal) : JVal :=
  match level with
  | some (.str "Beginner") => .num 25
  | some (.str "Intermediate") => .num 50
  | some (.str "Advanced") => .num 75
  | some (.str "Expert") => .num 90
  | _ => .num 50

/-- An object literal whose property values may be `undefined`: such properties are left
out of the JSON text. -/
def definedFields (fields : List (String × Option JVal)) : Doc :=
  fields.filterMap (fun kv => kv.2.map (fun v => (kv.1, v)))

/-- Source object literal of `saveAllSkills` for one skill. -/
def skillToSave (skill : Skill) : JVal :=
  .obj (definedFields
    [("name", skill.name), ("level", skill.level), ("percentage", skill.percentage)])

/-- Source `skillsData` of `saveAllSkills`: for each fixed category in turn, the skills
of that category. -/
def saveAllSkillsBody (skills : List Skill) : JVal :=
  .obj (skillCategories.foldl
    (fun acc category =>
      assignOwn category
        (.arr ((skills.filter (fun skill => decide (skill.category = category))).map
          skillToSave)) acc)
    [])

/-- One `skillsArray.push(...)` of `fetchSkillsContent`; reading a property of `null`
throws (`none`). -/
def skillOfData (newId : Nat) (category : String) (skill : JVal) : Option Skill :=
  match skill with
  | .null => none
  | _ =>
    some { id := newId, category := category,
           name := ownProperty skill "name",
           level := ownProperty skill "level",
           percentage :=
             match ownProperty skill "percentage" with
             | some v =>
               if v.truthy then some v
               else some (getLevelPercentage (ownProperty skill "level"))
             | none => some (getLevelPercentage (ownProperty skill "level")) }

/-- The skills pushed for the elements of one category's array. -/
def skillsOfArray (newId : Nat) (category : String) : List JVal → Option (List Skill)
  | [] => some []
  | skill :: rest =>
    match skillOfData newId category skill, skillsOfArray newId category rest with
    | some s, some ss => some (s :: ss)
    | _, _ => none

/-- The skills pushed for the keys of the data, in the order of `Object.keys`; a value
that is not an array contributes nothing. -/
def skillsOfEntries (newId : Nat) : Doc → Option (List Skill)
  | [] => some []
  | (category, value) :: rest =>
    match value with
    | .arr xs =>
      match skillsOfArray newId category xs, skillsOfEntries newId rest with
      | some ss, some more => some (ss ++ more)
      | _, _ => none
    | _ => skillsOfEntries newId rest

/-- Source `skillsArray` of `fetchSkillsContent` for the response data `data`; `none`
when the conversion throws (`Object.keys(null)`, or a `null` element).  Every new skill
gets the id `newId`. -/
def fetchSkillsArray (newId : Nat) (data : JVal) : Option (List Skill) :=
  match data with
  | .null => none
  | _ => skillsOfEntries newId (spreadProps data)

/-! ## The admin client: about editor -/

/-- Characters JavaScript `trim` removes: white space and line terminators. -/
def isTrimChar (c : Char) : Bool :=
  c.toNat ∈ [0x09, 0x0A, 0x0B, 0x0C, 0x0D, 0x20, 0xA0, 0x1680, 0x2000, 0x2001, 0x2002,
    0x2003, 0x2004, 0x2005, 0x2006, 0x2007, 0x2008, 0x2009, 0x200A, 0x2028, 0x2029, 0x202F,
    0x205F, 0x3000, 0xFEFF]

/-- JavaScript `trim` on characters. -/
def trimChars (cs : List Char) : List Char :=
  ((cs.dropWhile isTrimChar).reverse.dropWhile isTrimChar).reverse

/-- JavaScript `s.trim()`. -/
def jsTrim (s : String) : String :=
  String.mk (trimChars s.data)

/-- JavaScript `parts.join(sep)` on characters. -/
def joinChars (sep : List Char) : List (List Char) → List Char
  | [] => []
  | [p] => p
  | p :: q :: rest => p ++ sep ++ joinChars sep (q :: rest)

/-- JavaScript `parts.join(sep)`. -/
def jsJoin (sep : String) (parts : List String) : String :=
  String.mk (joinChars sep.data (parts.map String.data))

/-- One key strength of the about section. -/
structure Strength where
  title : String
  description : String
  deriving DecidableEq

/-- Source expression of `fetchAboutContent` for the `strengths` field:
`data.keyStrengths?.map(s => title + ': ' + description).join('\n') || ''`. -/
def formatStrengths (keyStrengths : Option (List Strength)) : String :=
  match keyStrengths with
  | none => ""
  | some l => jsJoin "\n" (l.map (fun s => s.title ++ ": " ++ s.description))

/-- Source arrow function of `onSubmit` for one line: the text before the first colon is
the title, the rest, colons kept, the description, both trimmed. -/
def parseStrength (line : String) : Strength :=
  match jsSplit ':' line with
  | [] => { title := jsTrim "", description := jsTrim "" }
  | title :: descParts =>
    { title := jsTrim title, description := jsTrim (jsJoin ":" descParts) }

/-- Source `strengthsArray` of `onSubmit`: the non-blank lines of the text, parsed. -/
def parseStrengths (text : String) : List Strength :=
  ((jsSplit '\n' text).filter (fun s => decide (jsTrim s ≠ ""))).map parseStrength

/-! ## A small concrete `Crypto`, for evaluating the handlers on examples -/

/-- Example codec: the claims and the secret joined by dots. -/
def demoEncode (c : Claims) (secret : String) : String :=
  toString c.id.toNat ++ "." ++ c.username ++ "." ++ c.role ++ "." ++
    toString c.iat ++ "." ++ toString c.exp ++ "." ++ secret

/-- Example codec, decoding: six dot-separated fields, the last one being the secret. -/
def demoDecode (token secret : String) : Option Claims :=
  match jsSplit '.' token with
  | [id, u, r, iat, exp, sig] =>
    if sig = secret then
      match digitsToNat id.data, digitsToNat iat.data, digitsToNat exp.data with
      | some i, some a, some e =>
        some { id := Int.ofNat i, username := u, role := r, iat := a, exp := e }
      | _, _, _ => none
    else none
  | _ => none

/-- Example `Crypto`: the "hash" of a password is the password behind a fixed tag. -/
def demoCrypto : Crypto :=
  { bcryptCheck := fun plain hash => decide (hash = "$2a$10$" ++ plain)
    jwsEncode := demoEncode
    jwsDecode := demoDecode }

/-- Example user record. -/
def demoAdmin : User :=
  { id := 1, username := "admin", email := "admin@rahulthakur.dev",
    password := "$2a$10$admin123", role := "admin" }

/-- Example data directory: the default document and one user. -/
def demoDisk : Disk :=
  { contentFile := .holds defaultContent
    usersFile := .holds [demoAdmin]
    writable := true }

/-- The token `demoCrypto` issues to `demoAdmin` at clock 1000 under the default
secret. -/
def demoToken : String :=
  "1.admin.admin.1000.87400.your-secret-key-change-in-production"

/-- Example `bcrypt.hash`, matching `demoCrypto`. -/
def demoBcryptHash : BcryptHash :=
  fun plain _ _ => "$2a$10$" ++ plain

/-- Example data directory before the first boot: no file yet. -/
def freshDisk : Disk :=
  { contentFile := .missing, usersFile := .missing, writable := true }

/-- Example file part: three bytes named `photo.png`. -/
def demoPart : FilePart :=
  { file := { fieldname := "file", originalname := "photo.png", mimetype := "image/png" }
    content := [1, 2, 3] }

/-- Example file part: `photo.png` with exactly as many bytes as the size limit. -/
def demoLargePart : FilePart :=
  { file := demoPart.file, content := List.replicate fileSizeLimit 0 }

/-- Example editor state: one experience. -/
def demoExperience : JVal :=
  .obj [("id", .num 7), ("position", .str "Developer"), ("company", .str "IIT Mandi")]

/-- Example client state: logged in as `admin`, on the dashboard. -/
def demoClient : ClientState :=
  { authToken := some demoToken, user := some "admin", href := "/admin/dashboard" }

/-- Example `Crypto` with salted hashes: a hash matches a password when it ends with
it. -/
def demoSaltedCrypto : Crypto :=
  { bcryptCheck := fun plain hash => plain.data.isSuffixOf hash.data
    jwsEncode := demoEncode
    jwsDecode := demoDecode }

/-! ## Helper lemmas -/

theorem lookup_assignOwn_self (k : String) (v : JVal) (d : Doc) :
    (assignOwn k v d).lookup k = some v := by
  induction d with
  | nil => simp [assignOwn, List.lookup]
  | cons kv rest ih =>
    obtain ⟨k', v'⟩ := kv
    by_cases h : k' = k
    · simp [assignOwn, h, List.lookup]
    · have h' : (k == k') = false := by
        simpa using fun e : k = k' => h e.symm
      simp [assignOwn, h, List.lookup, h', ih]

theorem lookup_assignOwn_other (k k' : String) (v : JVal) (d : Doc) (hne : k' ≠ k) :
    (assignOwn k v d).lookup k' = d.lookup k' := by
  induction d with
  | nil =>
    have h' : (k' == k) = false := by simpa using hne
    simp [assignOwn, List.lookup, h']
  | cons kv rest ih =>
    obtain ⟨k₀, v₀⟩ := kv
    by_cases h : k₀ = k
    · subst h
      have h' : (k' == k₀) = false := by simpa using hne
      simp [assignOwn, List.lookup, h']
    · simp only [assignOwn, h, if_false, List.lookup]
      rw [ih]

theorem jsSplitAux_no_sep (sep : Char) (cs cur : List Char) (h : sep ∉ cs) :
    jsSplitAux sep cs cur = [cur.reverse ++ cs] := by
  induction cs generalizing cur with
  | nil => simp [jsSplitAux]
  | cons c rest ih =>
    have hc : c ≠ sep := fun e => h (by simp [e])
    have hr : sep ∉ rest := fun e => h (by simp [e])
    simp [jsSplitAux, hc, ih _ hr]

theorem jsSplit_bearer (t : String) (h : ' ' ∉ t.data) :
    jsSplit ' ' ("Bearer " ++ t) = ["Bearer", t] := by
  have hd : ("Bearer " ++ t).data = 'B' :: 'e' :: 'a' :: 'r' :: 'e' :: 'r' :: ' ' :: t.data := by
    simp [String.data_append]
  simp only [jsSplit, hd]
  simp [jsSplitAux, jsSplitAux_no_sep _ _ _ h]

theorem find_user_of_unique (users : List User) (u : User) (hmem : u ∈ users)
    (huniq : users.Pairwise (fun a b => a.username ≠ b.username)) :
    users.find? (fun x => strictEqStr x.username (some (.str u.username))) = some u := by
  induction users with
  | nil => simp at hmem
  | cons a rest ih =>
    rw [List.pairwise_cons] at huniq
    by_cases hau : a = u
    · subst hau
      simp [List.find?, strictEqStr]
    · have hin : u ∈ rest := by
        rcases List.mem_cons.mp hmem with e | e
        · exact absurd e.symm hau
        · exact e
      have hne : a.username ≠ u.username := huniq.1 u hin
      have hstep : strictEqStr a.username (some (.str u.username)) = false := by
        simp [strictEqStr, hne]
      rw [List.find?, hstep]
      exact ih hin huniq.2

/-! ## The authentication guard -/

theorem authenticateToken_of_verify_error (lib : Crypto) (envSecret : Option String)
    (now : Nat) (header token : String) (e : JwtError)
    (htoken : (jsSplit ' ' header).get? 1 = some token)
    (hne : token ≠ "")
    (hfail : jwtVerify lib token (JWT_SECRET envSecret) now = .error e) :
    authenticateToken lib envSecret now (some header)
      = .reject (resError 403 "Invalid or expired token") := by
  have hh : header ≠ "" := by
    intro hempty
    subst hempty
    simp [jsSplit, jsSplitAux] at htoken
  have htoken' : (jsSplit ' ' header)[1]? = some token := by simpa using htoken
  simp [authenticateToken, hh, htoken', hne, hfail]

theorem authenticateToken_of_verify_ok (lib : Crypto) (envSecret : Option String)
    (now : Nat) (header token : String) (c : Claims)
    (htoken : (jsSplit ' ' header).get? 1 = some token)
    (hne : token ≠ "")
    (hok : jwtVerify lib token (JWT_SECRET envSecret) now = .ok c) :
    authenticateToken lib envSecret now (some header) = .next c := by
  have hh : header ≠ "" := by
    intro hempty
    subst hempty
    simp [jsSplit, jsSplitAux] at htoken
  have htoken' : (jsSplit ' ' header)[1]? = some token := by simpa using htoken
  simp [authenticateToken, hh, htoken', hne, hok]

theorem status_ne_of_ne {a b : Response} (h : a.status ≠ b.status) : a ≠ b :=
  fun e => h (congrArg Response.status e)

/-- Behind the body parser, a request without an `Authorization` header is answered 401
"Access token required" by the guard, whatever the parsed body, and the data directory is
left as it was. -/
theorem guard_rejects_missing_header (lib : Crypto) (envSecret : Option String)
    (now : Nat) (disk : Disk) (sectionName : String) (body : JVal) :
    putContentSection lib envSecret now disk
        { authorization := none, sectionName := sectionName, body := body }
      = (resError 401 "Access token required", disk) ∧
    (resError 401 "Access token required").status = 401 := by
  constructor
  · simp [putContentSection, authenticateToken]
  · rfl

/-- C7, as stated, fails: with the malformed token `garbage` the route answers 403, with
no header it answers 401, and the two responses differ. -/
theorem put_invalid_token_differs_from_missing :
    (putContentSection demoCrypto none 1000 demoDisk
        { authorization := some "Bearer garbage", sectionName := "hero",
          body := .obj [] }).1.status = 403 ∧
    (putContentSection demoCrypto none 1000 demoDisk
        { authorization := none, sectionName := "hero", body := .obj [] }).1.status = 401 ∧
    (putContentSection demoCrypto none 1000 demoDisk
        { authorization := some "Bearer garbage", sectionName := "hero",
          body := .obj [] }).1 ≠
    (putContentSection demoCrypto none 1000 demoDisk
        { authorization := none, sectionName := "hero", body := .obj [] }).1 := by
  refine ⟨by decide, by decide, status_ne_of_ne (by decide)⟩

/-- C7, amended: a `PUT /api/content/:section` request whose header carries a non-empty
token on which `jwt.verify` fails (malformed, wrongly signed or expired) is answered 403
"Invalid or expired token" and leaves the data directory as it was; this is not the 401
response given when the header is missing. -/
theorem put_invalid_token_forbidden (lib : Crypto) (envSecret : Option String)
    (now : Nat) (disk : Disk) (header token : String) (e : JwtError)
    (sectionName : String) (body : JVal)
    (htoken : (jsSplit ' ' header).get? 1 = some token)
    (hne : token ≠ "")
    (hfail : jwtVerify lib token (JWT_SECRET envSecret) now = .error e) :
    putContentSection lib envSecret now disk
        { authorization := some header, sectionName := sectionName, body := body }
      = (resError 403 "Invalid or expired token", disk) ∧
    (putContentSection lib envSecret now disk
        { authorization := some header, sectionName := sectionName, body := body }).1 ≠
    (putContentSection lib envSecret now disk
        { authorization := none, sectionName := sectionName, body := body }).1 := by
  have key : putContentSection lib envSecret now disk
        { authorization := some header, sectionName := sectionName, body := body }
      = (resError 403 "Invalid or expired token", disk) := by
    simp [putContentSection,
      authenticateToken_of_verify_error lib envSecret now header token e htoken hne hfail]
  refine ⟨key, ?_⟩
  rw [key]
  apply status_ne_of_ne
  simp [putContentSection, authenticateToken, resError]

/-- Witness of C7 amended: a wrongly signed token (issued under another secret). -/
theorem put_invalid_token_forbidden_witness :
    putContentSection demoCrypto none 1000 demoDisk
        { authorization := some "Bearer 1.admin.admin.1000.87400.other-secret",
          sectionName := "hero", body := .obj [] }
      = (resError 403 "Invalid or expired token", demoDisk) :=
  (put_invalid_token_forbidden demoCrypto none 1000 demoDisk
    "Bearer 1.admin.admin.1000.87400.other-secret" "1.admin.admin.1000.87400.other-secret"
    .invalid "hero" (.obj []) (by decide) (by decide) (by rfl)).1

/-- C8: when the header carries a non-empty token and `jwt.verify` fails on it, for
whichever reason, the guard answers 403 "Invalid or expired token" and does not call
`next()`. -/
theorem guard_forbidden_on_any_verify_failure (lib : Crypto) (envSecret : Option String)
    (now : Nat) (header token : String) (e : JwtError)
    (htoken : (jsSplit ' ' header).get? 1 = some token)
    (hne : token ≠ "")
    (hfail : jwtVerify lib token (JWT_SECRET envSecret) now = .error e) :
    authenticateToken lib envSecret now (some header)
      = .reject (resError 403 "Invalid or expired token") ∧
    (resError 403 "Invalid or expired token").status = 403 ∧
    ∀ user, authenticateToken lib envSecret now (some header) ≠ .next user := by
  have key := authenticateToken_of_verify_error lib envSecret now header token e htoken hne hfail
  refine ⟨key, rfl, ?_⟩
  intro user h
  rw [key] at h
  cases h

/-- Witness of C8: the token issued at clock 1000 is presented at clock 90000, after its
expiry. -/
theorem guard_forbidden_on_any_verify_failure_witness :
    authenticateToken demoCrypto none 90000 (some ("Bearer " ++ demoToken))
      = .reject (resError 403 "Invalid or expired token") :=
  (guard_forbidden_on_any_verify_failure demoCrypto none 90000 ("Bearer " ++ demoToken)
    demoToken .expired (by decide) (by decide) (by rfl)).1

/-! ## The upload filter -/

/-- C10: a file whose original name has the extension `.exe` (in any letter case) is
rejected by the upload filter, whatever MIME type it declares. -/
theorem fileFilter_rejects_exe (file : UploadFile)
    (hext : toLowerCase (extname file.originalname) = ".exe") :
    fileFilter file = .reject "Only images and documents are allowed" := by
  have h : allowedTypesTest ".exe" = false := by decide
  simp [fileFilter, hext, h]

/-- Witness of C10: `virus.exe` declared as `image/png`. -/
theorem fileFilter_rejects_exe_witness :
    fileFilter { fieldname := "file", originalname := "virus.exe", mimetype := "image/png" }
      = .reject "Only images and documents are allowed" :=
  fileFilter_rejects_exe
    { fieldname := "file", originalname := "virus.exe", mimetype := "image/png" } (by decide)

/-! ## Content routes -/

theorem putContentSectionHandler_stores (disk : Disk) (k : String) (v : JVal)
    (hk : k ≠ "__proto__") (hw : disk.writable = true) :
    putContentSectionHandler disk k v
      = (resJson (.json (.obj [("message", .str "Content updated successfully"), ("data", v)])),
         { disk with contentFile := .holds (assignOwn k v (getContent disk).own) }) := by
  have hget : getProp (setProp (getContent disk) k v) k = .json v := by
    simp [setProp, hk, getProp, lookup_assignOwn_self]
  have hown : (setProp (getContent disk) k v).own = assignOwn k v (getContent disk).own := by
    simp [setProp, hk]
  simp only [putContentSectionHandler, saveContent, writeJsonSync, hw, if_true, hget, hown]
  simp [objectLiteral, stringifyTop]

/-- Frame property of a write that goes through, for a section name other than
`__proto__`: the stored document afterwards maps the name to the written value and every
other name to what the document read before the write (`getContent`) mapped it to. -/
theorem putContentSectionHandler_frame (disk : Disk) (k : String) (v : JVal)
    (hk : k ≠ "__proto__") (hw : disk.writable = true) :
    ∃ doc, (putContentSectionHandler disk k v).2.contentFile = .holds doc ∧
      doc.lookup k = some v ∧
      ∀ k', k' ≠ k → doc.lookup k' = (getContent disk).own.lookup k' := by
  refine ⟨assignOwn k v (getContent disk).own, ?_, lookup_assignOwn_self _ _ _, ?_⟩
  · rw [putContentSectionHandler_stores disk k v hk hw]
  · intro k' hne
    exact lookup_assignOwn_other k k' v _ hne

theorem jsonParse_truthy (X : JVal) (hX : X.isObjectOrArray = true) :
    (jsonParse X).truthy = true := by
  cases X with
  | obj kvs => simp [jsonParse, JVal.truthy]
  | arr xs => simp [jsonParse, JVal.truthy]
  | null => simp [JVal.isObjectOrArray] at hX
  | bool b => simp [JVal.isObjectOrArray] at hX
  | num n => simp [JVal.isObjectOrArray] at hX
  | str t => simp [JVal.isObjectOrArray] at hX

/-- The body parser refuses every top-level scalar (`null`, a boolean, a number, a
string): the route answers 400 before the guard or the handler runs, and the data
directory is left as it was. -/
theorem putContentRoute_scalar (lib : Crypto) (envSecret : Option String) (now : Nat)
    (disk : Disk) (auth : Option String) (sectionName : String) (X : JVal)
    (hX : X.isObjectOrArray = false) :
    putContentRoute lib envSecret now disk
        { authorization := auth, sectionName := sectionName, body := .json X }
      = (parserError 400, disk) := by
  simp [putContentRoute, expressJson, hX]

/-- An integer literal that is not a double is stored, and read back, as the nearest
double: the body `{"n": 9007199254740993}` comes back with `9007199254740992`. -/
theorem put_rounds_numbers :
    getContentSection
        (putContentRoute demoCrypto none 2000 demoDisk
          { authorization := some ("Bearer " ++ demoToken), sectionName := "hero",
            body := .json (.obj [("n", .num 9007199254740993)]) }).2 "hero"
      = resJson (.json (.obj [("n", .num 9007199254740992)])) := by
  rfl

/-- C3, as stated, fails for a scalar: an authorized write of the number `5` to `hero` is
refused by the body parser with 400, the data directory stays as it was, and the read of
`hero` that follows returns the section as it was before, not `5`. -/
theorem hero_roundtrip_fails_for_scalar :
    (putContentRoute demoCrypto none 2000 demoDisk
        { authorization := some ("Bearer " ++ demoToken), sectionName := "hero",
          body := .json (.num 5) }).1.status = 400 ∧
    getContentSection
        (putContentRoute demoCrypto none 2000 demoDisk
          { authorization := some ("Bearer " ++ demoToken), sectionName := "hero",
            body := .json (.num 5) }).2 "hero"
      = getContentSection demoDisk "hero" ∧
    getContentSection
        (putContentRoute demoCrypto none 2000 demoDisk
          { authorization := some ("Bearer " ++ demoToken), sectionName := "hero",
            body := .json (.num 5) }).2 "hero"
      ≠ resJson (.json (.num 5)) := by
  refine ⟨by rfl, by rfl, fun h => ?_⟩
  have hbody := congrArg
    (fun r : Response => match r.body with
      | some (.num _) => true
      | _ => false) h
  exact absurd hbody (by decide)

/-- C3, amended: for every JSON object and every JSON array `X` sent as the body, a write
to `hero` that passes the guard and whose write-back goes through is answered 200, and the
read of `hero` that follows returns what `JSON.parse` makes of `X`; that is exactly `X`
whenever `X` is a value as `JSON.parse` returns it (its numbers are doubles and no name is
repeated in an object). -/
theorem hero_roundtrip_of_object_or_array (lib : Crypto) (envSecret : Option String)
    (now : Nat) (disk : Disk) (auth : Option String) (user : Claims) (X : JVal)
    (hauth : authenticateToken lib envSecret now auth = .next user)
    (hw : disk.writable = true)
    (hX : X.isObjectOrArray = true) :
    (putContentRoute lib envSecret now disk
        { authorization := auth, sectionName := "hero", body := .json X }).1.status = 200 ∧
    getContentSection
        (putContentRoute lib envSecret now disk
          { authorization := auth, sectionName := "hero", body := .json X }).2 "hero"
      = resJson (.json (jsonParse X)) ∧
    (jsonParse X = X →
      getContentSection
          (putContentRoute lib envSecret now disk
            { authorization := auth, sectionName := "hero", body := .json X }).2 "hero"
        = resJson (.json X)) := by
  have hput : putContentRoute lib envSecret now disk
        { authorization := auth, sectionName := "hero", body := .json X }
      = putContentSectionHandler disk "hero" (jsonParse X) := by
    simp [putContentRoute, expressJson, hX, putContentSection, hauth]
  have hread : getContentSection (putContentSectionHandler disk "hero" (jsonParse X)).2 "hero"
      = resJson (.json (jsonParse X)) := by
    rw [putContentSectionHandler_stores disk "hero" (jsonParse X) (by decide) hw]
    simp [getContentSection, getContent, readJsonSync, getProp, lookup_assignOwn_self,
      JsVal.truthy, jsonParse_truthy X hX]
  rw [hput]
  refine ⟨?_, hread, fun hfix => ?_⟩
  · rw [putContentSectionHandler_stores disk "hero" (jsonParse X) (by decide) hw]
    rfl
  · rw [hread, hfix]

/-- Witness of C3 amended: an object with a string, a number and a nested array, written
by `demoAdmin`, is read back as it was written. -/
theorem hero_roundtrip_of_object_or_array_witness :
    getContentSection
        (putContentRoute demoCrypto none 2000 demoDisk
          { authorization := some ("Bearer " ++ demoToken), sectionName := "hero",
            body := .json (.obj [("name", .str "R"), ("years", .num 3),
                                 ("tags", .arr [.str "a", .null])]) }).2 "hero"
      = resJson (.json (.obj [("name", .str "R"), ("years", .num 3),
                              ("tags", .arr [.str "a", .null])])) :=
  (hero_roundtrip_of_object_or_array demoCrypto none 2000 demoDisk
    (some ("Bearer " ++ demoToken))
    { id := 1, username := "admin", role := "admin", iat := 1000, exp := 87400 }
    (.obj [("name", .str "R"), ("years", .num 3), ("tags", .arr [.str "a", .null])])
    (by rfl) (by rfl) (by rfl)).2.2 (by rfl)

/-- C6, as stated, fails: a request without an `Authorization` header whose body is the
text `0`, or is not JSON at all, is answered 400 by the body parser, not 401. -/
theorem put_without_authorization_bad_body :
    (putContentRoute demoCrypto none 1000 demoDisk
        { authorization := none, sectionName := "hero", body := .json (.num 0) }).1.status
      = 400 ∧
    (putContentRoute demoCrypto none 1000 demoDisk
        { authorization := none, sectionName := "hero", body := .malformed }).1.status
      = 400 ∧
    (putContentRoute demoCrypto none 1000 demoDisk
        { authorization := none, sectionName := "hero", body := .json (.num 0) }).1
      ≠ resError 401 "Access token required" := by
  refine ⟨by rfl, by rfl, status_ne_of_ne (by decide)⟩

/-- C6, amended: a `PUT /api/content/:section` request without an `Authorization` header
leaves the data directory exactly as it was, whatever the section name and the body.  It
is answered 401 "Access token required" when the body parser lets the body through (an
empty body, a JSON object or a JSON array); when the parser refuses the body it answers
first: 400 for a text that is not JSON and for a top-level scalar, 413 for a body over the
size limit. -/
theorem put_without_authorization_parser_then_guard (lib : Crypto)
    (envSecret : Option String) (now : Nat) (disk : Disk) (sectionName : String)
    (body : RequestBody) :
    (putContentRoute lib envSecret now disk
        { authorization := none, sectionName := sectionName, body := body }).2 = disk ∧
    ((body = .empty ∨ ∃ v, body = .json v ∧ v.isObjectOrArray = true) →
      (putContentRoute lib envSecret now disk
          { authorization := none, sectionName := sectionName, body := body }).1
        = resError 401 "Access token required") ∧
    ((body = .malformed ∨ ∃ v, body = .json v ∧ v.isObjectOrArray = false) →
      (putContentRoute lib envSecret now disk
          { authorization := none, sectionName := sectionName, body := body }).1
        = parserError 400) ∧
    (body = .tooLarge →
      (putContentRoute lib envSecret now disk
          { authorization := none, sectionName := sectionName, body := body }).1
        = parserError 413) := by
  refine ⟨?_, ?_, ?_, ?_⟩
  · cases body with
    | tooLarge => rfl
    | empty => simp [putContentRoute, expressJson, putContentSection, authenticateToken]
    | malformed => rfl
    | json v =>
      cases hv : v.isObjectOrArray <;>
        simp [putContentRoute, expressJson, hv, putContentSection, authenticateToken]
  · rintro (rfl | ⟨v, rfl, hv⟩)
    · simp [putContentRoute, expressJson, putContentSection, authenticateToken]
    · simp [putContentRoute, expressJson, hv, putContentSection, authenticateToken]
  · rintro (rfl | ⟨v, rfl, hv⟩)
    · rfl
    · simp [putContentRoute, expressJson, hv]
  · rintro rfl
    rfl

/-- C4 at the failing input: an authorized `PUT /api/content/__proto__` with the body
`{"a": 1}` is answered 200 with that body as `data`, yet the document written back
is the document as it was and has no key `__proto__`. -/
theorem put_proto_section_not_stored :
    (putContentSection demoCrypto none 2000 demoDisk
        { authorization := some ("Bearer " ++ demoToken), sectionName := "__proto__",
          body := .obj [("a", .num 1)] }).1
      = resJson (.json (.obj [("message", .str "Content updated successfully"),
                              ("data", .obj [("a", .num 1)])])) ∧
    readJsonSync
        (putContentSection demoCrypto none 2000 demoDisk
          { authorization := some ("Bearer " ++ demoToken), sectionName := "__proto__",
            body := .obj [("a", .num 1)] }).2.contentFile
      = some defaultContent ∧
    defaultContent.lookup "__proto__" = none := by
  refine ⟨by rfl, by rfl, by rfl⟩

/-- C5 at the failing inputs: `constructor` is not a key of the default document, yet
reading it is answered 200 with an empty body; and in the document `{"count": 0}`
the name `count` is a key, yet reading it is answered 404. -/
theorem get_section_not_found_mismatch :
    defaultContent.lookup "constructor" = none ∧
    getContentSection demoDisk "constructor" = { status := 200, body := none } ∧
    getContentSection
        { contentFile := .holds [("count", .num 0)], usersFile := .missing, writable := true }
        "count"
      = resError 404 "Section not found" := by
  refine ⟨by rfl, by rfl, by rfl⟩

/-! ## Login -/

theorem timespan_24h : timespan "24h" = some 86400 := by decide

/-- C1: for a user record of the credential store (usernames being unique) and a password
that matches its stored hash, login answers 200 with a token; presented as
`Bearer <token>` before the expiry, the guard accepts it and the verified claims carry the
stored role.  The codec is assumed to decode, under the same secret, the token it encoded,
and to produce a non-empty token without blanks. -/
theorem login_token_verifies (lib : Crypto) (envSecret : Option String) (now later : Nat)
    (disk : Disk) (users : List User) (u : User) (pw : String) (body : JVal)
    (hfile : disk.usersFile = .holds users)
    (hmem : u ∈ users)
    (huniq : users.Pairwise (fun a b => a.username ≠ b.username))
    (huser : bodyField body "username" = some (some (.str u.username)))
    (hpass : bodyField body "password" = some (some (.str pw)))
    (hmatch : lib.bcryptCheck pw u.password = true)
    (hcodec :
      lib.jwsDecode
          (lib.jwsEncode (⟨u.id, u.username, u.role, now, now + 86400⟩ : Claims)
            (JWT_SECRET envSecret))
          (JWT_SECRET envSecret)
        = some (⟨u.id, u.username, u.role, now, now + 86400⟩ : Claims))
    (hnonempty :
      lib.jwsEncode (⟨u.id, u.username, u.role, now, now + 86400⟩ : Claims)
        (JWT_SECRET envSecret) ≠ "")
    (hnoblank :
      ' ' ∉ (lib.jwsEncode (⟨u.id, u.username, u.role, now, now + 86400⟩ : Claims)
        (JWT_SECRET envSecret)).data)
    (hlater : later < now + 86400) :
    postAuthLogin lib envSecret now disk body
      = resJson (.json (loginSuccessBody
          (lib.jwsEncode (⟨u.id, u.username, u.role, now, now + 86400⟩ : Claims)
            (JWT_SECRET envSecret)) u)) ∧
    (postAuthLogin lib envSecret now disk body).status = 200 ∧
    authenticateToken lib envSecret later
        (some ("Bearer " ++
          lib.jwsEncode (⟨u.id, u.username, u.role, now, now + 86400⟩ : Claims)
            (JWT_SECRET envSecret)))
      = .next (⟨u.id, u.username, u.role, now, now + 86400⟩ : Claims) ∧
    (⟨u.id, u.username, u.role, now, now + 86400⟩ : Claims).role = u.role := by
  have hfind := find_user_of_unique users u hmem huniq
  refine ⟨?_, ?_, ?_, rfl⟩
  · simp [postAuthLogin, loginTry, huser, hpass, hfile, readJsonSync, hfind, bcryptCompare,
      hmatch, jwtSign, timespan_24h]
  · simp [postAuthLogin, loginTry, huser, hpass, hfile, readJsonSync, hfind, bcryptCompare,
      hmatch, jwtSign, timespan_24h, resJson]
  · apply authenticateToken_of_verify_ok lib envSecret later _ _ _ _ hnonempty
    · simp [jwtVerify, hcodec, Nat.not_le.mpr hlater]
    · rw [jsSplit_bearer _ hnoblank]
      rfl

/-- Witness of C1: `admin` / `admin123` logs in at clock 1000 and the token is presented
at clock 2000. -/
theorem login_token_verifies_witness :
    postAuthLogin demoCrypto none 1000 demoDisk
        (.obj [("username", .str "admin"), ("password", .str "admin123")])
      = resJson (.json (loginSuccessBody demoToken demoAdmin)) ∧
    (postAuthLogin demoCrypto none 1000 demoDisk
        (.obj [("username", .str "admin"), ("password", .str "admin123")])).status = 200 ∧
    authenticateToken demoCrypto none 2000 (some ("Bearer " ++ demoToken))
      = .next (⟨1, "admin", "admin", 1000, 87400⟩ : Claims) ∧
    (⟨1, "admin", "admin", 1000, 87400⟩ : Claims).role = "admin" :=
  login_token_verifies demoCrypto none 1000 2000 demoDisk [demoAdmin] demoAdmin "admin123"
    (.obj [("username", .str "admin"), ("password", .str "admin123")])
    (by rfl) (by simp) (by simp) (by rfl) (by rfl) (by decide) (by decide) (by decide)
    (by decide) (by decide)

/-- C2 at the failing input: for the stored username `admin`, a request without a
password field, or with a number in it, is answered 500 "Server error", whereas a request
for a username that is not stored is answered 401 "Invalid credentials". -/
theorem login_nonstring_password_differs_from_unknown_user :
    postAuthLogin demoCrypto none 1000 demoDisk (.obj [("username", .str "admin")])
      = resError 500 "Server error" ∧
    postAuthLogin demoCrypto none 1000 demoDisk
        (.obj [("username", .str "admin"), ("password", .num 123)])
      = resError 500 "Server error" ∧
    postAuthLogin demoCrypto none 1000 demoDisk (.obj [("username", .str "nobody")])
      = resError 401 "Invalid credentials" ∧
    resError 500 "Server error" ≠ resError 401 "Invalid credentials" := by
  refine ⟨by rfl, by rfl, by rfl, status_ne_of_ne (by decide)⟩

/-- The part of C2 that holds: for a stored username, a password that is a string and
does not match the stored hash is answered exactly as a username that is not stored. -/
theorem login_wrong_string_password_same_as_unknown_user (lib : Crypto)
    (envSecret : Option String) (now : Nat) (disk : Disk) (users : List User) (u : User)
    (pw : String) (stranger : String)
    (hfile : disk.usersFile = .holds users)
    (hmem : u ∈ users)
    (huniq : users.Pairwise (fun a b => a.username ≠ b.username))
    (hstranger : ∀ x ∈ users, x.username ≠ stranger)
    (hmismatch : lib.bcryptCheck pw u.password = false) :
    postAuthLogin lib envSecret now disk
        (.obj [("username", .str u.username), ("password", .str pw)])
      = postAuthLogin lib envSecret now disk
        (.obj [("username", .str stranger), ("password", .str pw)]) := by
  have hfind := find_user_of_unique users u hmem huniq
  have hnone : users.find? (fun x => strictEqStr x.username (some (.str stranger))) = none := by
    rw [List.find?_eq_none]
    intro x hx
    simp [strictEqStr, hstranger x hx]
  by_cases hsame : u.username = stranger
  · rw [hsame]
  · have h1 : ("password" == "username") = false := by decide
    simp [postAuthLogin, loginTry, bodyField, List.lookup, h1, hfile, readJsonSync, hfind,
      hnone, bcryptCompare, hmismatch]

/-- C9: whenever login answers 200, the body is the success body for the user record the
lookup matched, and its token is the encoding, under `JWT_SECRET`, of claims that carry
that record's id, username and role, were issued at the current clock, and expire exactly
86400 seconds after their issue time. -/
theorem login_success_payload (lib : Crypto) (envSecret : Option String) (now : Nat)
    (disk : Disk) (body : JVal)
    (hok : (postAuthLogin lib envSecret now disk body).status = 200) :
    ∃ users username user claims,
      readJsonSync disk.usersFile = some users ∧
      bodyField body "username" = some username ∧
      users.find? (fun u => strictEqStr u.username username) = some user ∧
      claims.id = user.id ∧ claims.username = user.username ∧ claims.role = user.role ∧
      claims.iat = now ∧ claims.exp = claims.iat + 86400 ∧
      postAuthLogin lib envSecret now disk body
        = resJson (.json (loginSuccessBody (lib.jwsEncode claims (JWT_SECRET envSecret)) user)) := by
  unfold postAuthLogin loginTry at hok ⊢
  cases hu : bodyField body "username" with
  | none => simp [hu, resError] at hok
  | some username =>
    cases hp : bodyField body "password" with
    | none => simp [hu, hp, resError] at hok
    | some password =>
      cases hr : readJsonSync disk.usersFile with
      | none => simp [hu, hp, hr, resError] at hok
      | some users =>
        cases hf : users.find? (fun u => strictEqStr u.username username) with
        | none => simp [hu, hp, hr, hf, resError] at hok
        | some user =>
          cases hc : bcryptCompare lib password user.password with
          | none => simp [hu, hp, hr, hf, hc, resError] at hok
          | some b =>
            cases b with
            | false => simp [hu, hp, hr, hf, hc, resError] at hok
            | true =>
              refine ⟨users, username, user,
                (⟨user.id, user.username, user.role, now, now + 86400⟩ : Claims),
                rfl, rfl, hf, rfl, rfl, rfl, rfl, rfl, ?_⟩
              simp [hf, hc, jwtSign, timespan_24h]

/-- Witness of C9: `admin` / `admin123` at clock 1000. -/
theorem login_success_payload_witness :
    ∃ users username user claims,
      readJsonSync demoDisk.usersFile = some users ∧
      bodyField (.obj [("username", .str "admin"), ("password", .str "admin123")]) "username"
        = some username ∧
      users.find? (fun u => strictEqStr u.username username) = some user ∧
      claims.id = user.id ∧ claims.username = user.username ∧ claims.role = user.role ∧
      claims.iat = 1000 ∧ claims.exp = claims.iat + 86400 ∧
      postAuthLogin demoCrypto none 1000 demoDisk
          (.obj [("username", .str "admin"), ("password", .str "admin123")])
        = resJson (.json (loginSuccessBody (demoCrypto.jwsEncode claims (JWT_SECRET none)) user)) :=
  login_success_payload demoCrypto none 1000 demoDisk
    (.obj [("username", .str "admin"), ("password", .str "admin123")]) (by decide)

/-! ## Decimal numerals -/

theorem digitChar_isDigit_and_value (d : Nat) (hd : d < 10) :
    (Nat.digitChar d).isDigit = true ∧ (Nat.digitChar d).toNat - 48 = d := by
  interval_cases d <;> exact ⟨by decide, by decide⟩

theorem toDigitsCore_spec (fuel : Nat) :
    ∀ (n : Nat) (ds : List Char), n < fuel →
      ∃ pre, Nat.toDigitsCore 10 fuel n ds = pre ++ ds ∧
        (∀ c ∈ pre, c.isDigit = true) ∧
        pre.foldl (fun m c => 10 * m + (c.toNat - 48)) 0 = n := by
  induction fuel with
  | zero => intro n ds h; omega
  | succ fuel ih =>
    intro n ds hn
    have hdig := digitChar_isDigit_and_value (n % 10) (Nat.mod_lt _ (by decide))
    rw [Nat.toDigitsCore]
    by_cases h0 : n / 10 = 0
    · refine ⟨[Nat.digitChar (n % 10)], by simp [h0], ?_, ?_⟩
      · intro c hc
        simp only [List.mem_singleton] at hc
        rw [hc]; exact hdig.1
      · simp only [List.foldl, hdig.2]
        omega
    · have hlt : n / 10 < fuel := by omega
      obtain ⟨pre, hpre, hall, hval⟩ := ih (n / 10) (Nat.digitChar (n % 10) :: ds) hlt
      refine ⟨pre ++ [Nat.digitChar (n % 10)], by simp [h0, hpre], ?_, ?_⟩
      · intro c hc
        rcases List.mem_append.mp hc with h | h
        · exact hall c h
        · simp only [List.mem_singleton] at h
          rw [h]; exact hdig.1
      · rw [List.foldl_append, hval]
        simp only [List.foldl, hdig.2]
        omega

theorem toString_nat_spec (n : Nat) :
    (∀ c ∈ (toString n).data, c.isDigit = true) ∧
    (toString n).data.foldl (fun m c => 10 * m + (c.toNat - 48)) 0 = n := by
  obtain ⟨pre, hpre, hall, hval⟩ := toDigitsCore_spec (n + 1) n [] (Nat.lt_succ_self n)
  have hdata : (toString n).data = pre := by
    show (Nat.repr n).data = pre
    simp [Nat.repr, Nat.toDigits, hpre, List.asString]
  rw [hdata]
  exact ⟨hall, hval⟩

theorem toString_nat_injective (a b : Nat) (h : toString a = toString b) : a = b := by
  have ha := (toString_nat_spec a).2
  have hb := (toString_nat_spec b).2
  rw [h] at ha
  omega

theorem toString_nat_no_hyphen (n : Nat) : '-' ∉ (toString n).data := by
  intro h
  have := (toString_nat_spec n).1 '-' h
  revert this
  decide

theorem split_at_first_hyphen (a a' b b' : List Char) (ha : '-' ∉ a) (ha' : '-' ∉ a')
    (h : a ++ '-' :: b = a' ++ '-' :: b') : a = a' ∧ b = b' := by
  induction a generalizing a' with
  | nil =>
    cases a' with
    | nil => simpa using h
    | cons c rest =>
      simp only [List.nil_append, List.cons_append, List.cons.injEq] at h
      exact absurd (by simp [← h.1]) ha'
  | cons c rest ih =>
    cases a' with
    | nil =>
      simp only [List.nil_append, List.cons_append, List.cons.injEq] at h
      exact absurd (by simp [h.1]) ha
    | cons c' rest' =>
      simp only [List.cons_append, List.cons.injEq] at h
      have hr : '-' ∉ rest := fun e => ha (by simp [e])
      have hr' : '-' ∉ rest' := fun e => ha' (by simp [e])
      obtain ⟨e1, e2⟩ := ih rest' hr hr' h.2
      exact ⟨by rw [h.1, e1], e2⟩

theorem cancel_around_hyphen (A A' B B' E H : List Char) (hH : H = ['-'])
    (hd : A ++ (H ++ (B ++ E)) = A' ++ (H ++ (B' ++ E))) :
    A ++ '-' :: B = A' ++ '-' :: B' := by
  subst hH
  have hassoc : (A ++ '-' :: B) ++ E = (A' ++ '-' :: B') ++ E := by
    simp only [List.append_assoc, List.cons_append, List.singleton_append] at hd ⊢
    exact hd
  exact List.append_cancel_right hassoc

theorem storageFilename_injective (nowMs nowMs' k k' : Nat) (f f' : UploadFile)
    (hfield : f.fieldname = f'.fieldname) (horig : f.originalname = f'.originalname)
    (h : storageFilename nowMs k f = storageFilename nowMs' k' f') :
    nowMs = nowMs' ∧ randomSuffix k = randomSuffix k' := by
  have hd := congrArg String.data h
  simp only [storageFilename, uniqueSuffix, hfield, horig, String.data_append,
    List.append_assoc, List.append_cancel_left_eq] at hd
  generalize hA : (toString nowMs).data = A at hd
  generalize hA' : (toString nowMs').data = A' at hd
  generalize hB : (toString (randomSuffix k)).data = B at hd
  generalize hB' : (toString (randomSuffix k')).data = B' at hd
  have hd' : A ++ '-' :: B = A' ++ '-' :: B' :=
    cancel_around_hyphen A A' B B' _ _ rfl hd
  have h1 : '-' ∉ A := hA ▸ toString_nat_no_hyphen nowMs
  have h2 : '-' ∉ A' := hA' ▸ toString_nat_no_hyphen nowMs'
  obtain ⟨e1, e2⟩ := split_at_first_hyphen A A' B B' h1 h2 hd'
  have s1 : toString nowMs = toString nowMs' := String.ext (by rw [hA, hA', e1])
  have s2 : toString (randomSuffix k) = toString (randomSuffix k') :=
    String.ext (by rw [hB, hB', e2])
  exact ⟨toString_nat_injective _ _ s1, toString_nat_injective _ _ s2⟩

/-! ## The upload filter, continued -/

theorem occursIn_iff_infix (w s : List Char) : occursIn w s = true ↔ w <:+: s := by
  induction s with
  | nil => simp [occursIn, List.infix_nil]
  | cons c cs ih =>
    simp only [occursIn, Bool.or_eq_true, ih, List.infix_cons_iff, List.isPrefixOf_iff_prefix]

/-- What the filter does: a file is accepted exactly when one of the seven words occurs
somewhere in its declared MIME type and one occurs somewhere in its lower-cased
extension. -/
theorem fileFilter_accept_iff (file : UploadFile) :
    fileFilter file = .accept ↔
      (∃ w ∈ allowedTypes, w.data <:+: file.mimetype.data) ∧
      (∃ w ∈ allowedTypes, w.data <:+: (toLowerCase (extname file.originalname)).data) := by
  have htest : ∀ s : String,
      allowedTypesTest s = true ↔ ∃ w ∈ allowedTypes, w.data <:+: s.data := by
    intro s
    simp only [allowedTypesTest, List.any_eq_true, occursIn_iff_infix]
  rw [← htest, ← htest]
  unfold fileFilter
  cases allowedTypesTest file.mimetype <;>
    cases allowedTypesTest (toLowerCase (extname file.originalname)) <;> simp

/-- C11 at the failing inputs: `notes.docm`, whose extension `docm` is not one of the
seven, is accepted with the MIME type of macro-enabled Word files; and `letter.doc` is
accepted with the MIME type of OpenDocument text, which denotes none of the seven types. -/
theorem fileFilter_accepts_outside_allow_list :
    toLowerCase (extname "notes.docm") = ".docm" ∧
    "docm" ∉ allowedTypes ∧
    fileFilter { fieldname := "file", originalname := "notes.docm",
                 mimetype := "application/vnd.ms-word.document.macroEnabled.12" } = .accept ∧
    fileFilter { fieldname := "file", originalname := "letter.doc",
                 mimetype := "application/vnd.oasis.opendocument.text" } = .accept := by
  refine ⟨by decide, by decide, by decide, by decide⟩

/-- C12 at the failing input: `resume.doc` declared as `application/msword`, the standard
MIME type of `.doc`, is rejected; the other six extensions are accepted with their standard
MIME types. -/
theorem fileFilter_rejects_doc_with_msword :
    fileFilter { fieldname := "file", originalname := "resume.doc",
                 mimetype := "application/msword" }
      = .reject "Only images and documents are allowed" ∧
    fileFilter { fieldname := "file", originalname := "a.jpeg", mimetype := "image/jpeg" }
      = .accept ∧
    fileFilter { fieldname := "file", originalname := "a.jpg", mimetype := "image/jpeg" }
      = .accept ∧
    fileFilter { fieldname := "file", originalname := "a.png", mimetype := "image/png" }
      = .accept ∧
    fileFilter { fieldname := "file", originalname := "a.gif", mimetype := "image/gif" }
      = .accept ∧
    fileFilter { fieldname := "file", originalname := "a.pdf", mimetype := "application/pdf" }
      = .accept ∧
    fileFilter { fieldname := "file", originalname := "a.docx",
                 mimetype :=
                   "application/vnd.openxmlformats-officedocument.wordprocessingml.document" }
      = .accept := by
  refine ⟨by decide, by decide, by decide, by decide, by decide, by decide, by decide⟩

/-! ## The upload route -/

theorem lookup_writeFile_self (name : String) (bytes : List Nat) (entries : DirEntries) :
    (writeFile name bytes entries).lookup name = some bytes := by
  induction entries with
  | nil => simp [writeFile, List.lookup]
  | cons e rest ih =>
    obtain ⟨n, b⟩ := e
    by_cases h : n = name
    · simp [writeFile, h, List.lookup]
    · have h' : (name == n) = false := by
        simpa using fun e : name = n => h e.symm
      simp [writeFile, h, List.lookup, h', ih]

theorem lookup_writeFile_other (name name' : String) (bytes : List Nat)
    (entries : DirEntries) (hne : name' ≠ name) :
    (writeFile name bytes entries).lookup name' = entries.lookup name' := by
  induction entries with
  | nil =>
    have h' : (name' == name) = false := by simpa using hne
    simp [writeFile, List.lookup, h']
  | cons e rest ih =>
    obtain ⟨n, b⟩ := e
    by_cases h : n = name
    · subst h
      have h' : (name' == n) = false := by simpa using hne
      simp [writeFile, List.lookup, h']
    · simp only [writeFile, h, if_false, List.lookup]
      rw [ih]

theorem excessBits_le (n b : Nat) (hn : n < 2 ^ (53 + b)) (fuel e : Nat) (he : e ≤ b) :
    excessBits n fuel e ≤ b := by
  induction fuel generalizing e with
  | zero => simpa [excessBits] using he
  | succ fuel ih =>
    unfold excessBits
    split
    · exact he
    · rename_i hlt
      apply ih
      by_contra hcon
      have heq : e = b := by omega
      subst heq
      exact hlt hn

theorem excessBits_of_lt (n : Nat) (hn : n < 2 ^ 53) : excessBits n n 0 = 0 := by
  cases n with
  | zero => rfl
  | succ m =>
    unfold excessBits
    rw [if_pos (by simpa using hn)]

/-- A natural number below `2 ^ 53` is a double. -/
theorem roundToDouble_of_lt (n : Nat) (hn : n < 2 ^ 53) : roundToDouble n = n := by
  simp [roundToDouble, excessBits_of_lt n hn, Nat.mod_one]

theorem roundToDouble_le (n : Nat) : roundToDouble n ≤ n + 2 ^ excessBits n n 0 := by
  unfold roundToDouble
  have h := Nat.div_mul_le_self n (2 ^ excessBits n n 0)
  simp only
  split
  · omega
  · rw [Nat.add_mul, Nat.one_mul]
    omega

theorem randomSuffix_le (k : Nat) (hk : k < 2 ^ 53) : randomSuffix k ≤ 10 ^ 9 := by
  unfold randomSuffix
  have h53 : (2 : Nat) ^ 53 = 9007199254740992 := by norm_num
  have h54 : (2 : Nat) ^ 54 = 18014398509481984 := by norm_num
  have h9 : (10 : Nat) ^ 9 = 1000000000 := by norm_num
  have h83 : (2 : Nat) ^ (53 + 30) = 9671406556917033397649408 := by norm_num
  have h30 : (2 : Nat) ^ 30 = 1073741824 := by norm_num
  rw [h53] at hk
  have hn : k * 10 ^ 9 < 2 ^ (53 + 30) := by
    rw [h83, h9]; omega
  have he := excessBits_le (k * 10 ^ 9) 30 hn (k * 10 ^ 9) 0 (Nat.zero_le _)
  have hpow : 2 ^ excessBits (k * 10 ^ 9) (k * 10 ^ 9) 0 ≤ 2 ^ 30 :=
    Nat.pow_le_pow_right (by norm_num) he
  have hr := roundToDouble_le (k * 10 ^ 9)
  rw [h30] at hpow
  rw [h53, h54, h9]
  generalize roundToDouble (k * 10 ^ 9) = R at hr ⊢
  generalize 2 ^ excessBits (k * 10 ^ 9) (k * 10 ^ 9) 0 = P at hr hpow
  rw [h9] at hr
  omega

/-- The draws `12625251583782 / 2 ^ 53` and `12625251583783 / 2 ^ 53`: the exact products
with `1E9` lie on either side of 1401684.5, the double products are both the double just
above it, and both round to 1401685. -/
theorem randomSuffix_of_neighbouring_draws :
    (2 * (12625251583782 * 10 ^ 9) + 2 ^ 53) / 2 ^ 54 = 1401684 ∧
    (2 * (12625251583783 * 10 ^ 9) + 2 ^ 53) / 2 ^ 54 = 1401685 ∧
    randomSuffix 12625251583782 = 1401685 ∧ randomSuffix 12625251583783 = 1401685 := by
  refine ⟨by decide, by decide, by decide, by decide⟩

theorem uploadSingle_accepted (nowMs k : Nat) (dir : UploadDir) (p : FilePart)
    (hname : p.file.originalname ≠ "") (hfield : p.file.fieldname = "file")
    (hfilter : fileFilter p.file = .accept)
    (hsize : withinFileSizeLimit p.content.length = true) :
    uploadSingle nowMs k dir (some p)
      = (.ok (some { filename := storageFilename nowMs k p.file,
                     originalname := p.file.originalname, size := p.content.length }),
         some (writeFile (storageFilename nowMs k p.file) p.content (ensureDirSync dir))) := by
  simp [uploadSingle, hname, hfield, hfilter, hsize]

theorem uploadSingle_ok_some (nowMs k : Nat) (dir : UploadDir) (part : Option FilePart)
    (sf : StoredFile) (h : (uploadSingle nowMs k dir part).1 = .ok (some sf)) :
    ∃ p, part = some p ∧ p.file.fieldname = "file" ∧
      sf = { filename := storageFilename nowMs k p.file,
             originalname := p.file.originalname, size := p.content.length } ∧
      (uploadSingle nowMs k dir part).2
        = some (writeFile (storageFilename nowMs k p.file) p.content (ensureDirSync dir)) := by
  cases part with
  | none => simp [uploadSingle] at h
  | some p =>
    by_cases hname : p.file.originalname = ""
    · simp [uploadSingle, hname] at h
    · by_cases hfield : p.file.fieldname = "file"
      · cases hfilter : fileFilter p.file with
        | reject msg => simp [uploadSingle, hname, hfield, hfilter] at h
        | accept =>
          by_cases hsize : withinFileSizeLimit p.content.length = true
          · rw [uploadSingle_accepted nowMs k dir p hname hfield hfilter hsize] at h ⊢
            simp only [Except.ok.injEq, Option.some.injEq] at h
            exact ⟨p, rfl, hfield, h.symm, rfl⟩
          · simp [uploadSingle, hname, hfield, hfilter, hsize] at h
      · simp [uploadSingle, hname, hfield] at h

theorem authenticateToken_reject_status (lib : Crypto) (envSecret : Option String)
    (now : Nat) (authHeader : Option String) (res : Response)
    (h : authenticateToken lib envSecret now authHeader = .reject res) :
    res.status = 401 ∨ res.status = 403 := by
  have key : ∀ token : Option String,
      (match token with
        | none => AuthOutcome.reject (resError 401 "Access token required")
        | some t =>
          if t = "" then AuthOutcome.reject (resError 401 "Access token required")
          else
            match jwtVerify lib t (JWT_SECRET envSecret) now with
            | .error _ => AuthOutcome.reject (resError 403 "Invalid or expired token")
            | .ok user => AuthOutcome.next user) = .reject res →
      res.status = 401 ∨ res.status = 403 := by
    intro token ht
    cases token with
    | none =>
      simp only [AuthOutcome.reject.injEq] at ht
      subst ht; left; rfl
    | some t =>
      by_cases hempty : t = ""
      · simp only [hempty, if_true, AuthOutcome.reject.injEq] at ht
        subst ht; left; rfl
      · cases hv : jwtVerify lib t (JWT_SECRET envSecret) now with
        | error e =>
          simp only [hempty, if_false, hv, AuthOutcome.reject.injEq] at ht
          subst ht; right; rfl
        | ok user =>
          simp only [hempty, if_false, hv] at ht
          cases ht
  exact key _ h

/-- C13, as stated, fails: two authorized uploads of `photo.png` in the same millisecond,
whose random draws (`0 / 2 ^ 53` and `1 / 2 ^ 53`) round to the same integer, get the same
stored filename, and the directory afterwards holds one file, with the bytes of the second
upload. -/
theorem two_uploads_same_stored_filename :
    storageFilename 2000000 0 demoPart.file
      = storageFilename 2000000 1 { demoPart with content := [9, 9] }.file ∧
    (postUpload demoCrypto none 2000000 0 none
        { authorization := some ("Bearer " ++ demoToken), part := some demoPart }).2
      = some [("file-2000000-0.png", [1, 2, 3])] ∧
    (postUpload demoCrypto none 2000000 1
        (postUpload demoCrypto none 2000000 0 none
          { authorization := some ("Bearer " ++ demoToken), part := some demoPart }).2
        { authorization := some ("Bearer " ++ demoToken),
          part := some { demoPart with content := [9, 9] } }).2
      = some [("file-2000000-0.png", [9, 9])] := by
  refine ⟨by decide, by decide, by decide⟩

/-- C13, amended: two accepted uploads with the same original filename get different
stored filenames whenever they differ in the millisecond timestamp or in the rounded
random number; the second upload then does not overwrite the first, and both files are in
the directory afterwards. -/
theorem two_uploads_distinct_stored_filenames (nowMs nowMs' k k' : Nat) (dir : UploadDir)
    (p p' : FilePart)
    (hname : p.file.originalname ≠ "") (hfield : p.file.fieldname = "file")
    (hfilter : fileFilter p.file = .accept)
    (hsize : withinFileSizeLimit p.content.length = true)
    (hfield' : p'.file.fieldname = "file")
    (hfilter' : fileFilter p'.file = .accept)
    (hsize' : withinFileSizeLimit p'.content.length = true)
    (hsame : p.file.originalname = p'.file.originalname)
    (hdiff : nowMs ≠ nowMs' ∨ randomSuffix k ≠ randomSuffix k') :
    storageFilename nowMs k p.file ≠ storageFilename nowMs' k' p'.file ∧
    ∃ entries,
      (uploadSingle nowMs' k' (uploadSingle nowMs k dir (some p)).2 (some p')).2
        = some entries ∧
      entries.lookup (storageFilename nowMs k p.file) = some p.content ∧
      entries.lookup (storageFilename nowMs' k' p'.file) = some p'.content := by
  have hne : storageFilename nowMs k p.file ≠ storageFilename nowMs' k' p'.file := by
    intro heq
    have := storageFilename_injective nowMs nowMs' k k' p.file p'.file
      (by rw [hfield, hfield']) hsame heq
    rcases hdiff with h | h
    · exact h this.1
    · exact h this.2
  have hname' : p'.file.originalname ≠ "" := by rw [← hsame]; exact hname
  refine ⟨hne, writeFile (storageFilename nowMs' k' p'.file) p'.content
    (writeFile (storageFilename nowMs k p.file) p.content (ensureDirSync dir)), ?_, ?_, ?_⟩
  · rw [uploadSingle_accepted nowMs k dir p hname hfield hfilter hsize,
      uploadSingle_accepted nowMs' k' _ p' hname' hfield' hfilter' hsize']
    rfl
  · rw [lookup_writeFile_other _ _ _ _ hne, lookup_writeFile_self]
  · exact lookup_writeFile_self _ _ _

/-- Witness of C13 amended: the same `photo.png` uploaded at two different
milliseconds. -/
theorem two_uploads_distinct_stored_filenames_witness :
    storageFilename 2000000 0 demoPart.file ≠ storageFilename 2000001 0 demoPart.file :=
  (two_uploads_distinct_stored_filenames 2000000 2000001 0 0 none demoPart demoPart
    (by decide) (by decide) (by decide) (by decide) (by decide) (by decide) (by decide)
    rfl (Or.inl (by decide))).1

/-- C14: whenever `POST /api/upload` answers 200, the request carried a file part, the
stored filename is the field name, a hyphen, the millisecond timestamp, a hyphen, an
integer between 0 and 10^9, and the extension of the original filename, the `url` of the
body is `/uploads/` followed by that stored filename, and the file is written under that
name.  The random draw is `k / 2 ^ 53` with `k < 2 ^ 53`. -/
theorem upload_filename_and_url (lib : Crypto) (envSecret : Option String)
    (nowMs k : Nat) (dir : UploadDir) (req : UploadRequest) (res : Response)
    (hk : k < 2 ^ 53)
    (hres : (postUpload lib envSecret nowMs k dir req).1 = .respond res)
    (hstatus : res.status = 200) :
    ∃ p n name,
      req.part = some p ∧ n ≤ 10 ^ 9 ∧
      name = p.file.fieldname ++ "-" ++ toString nowMs ++ "-" ++ toString n
               ++ extname p.file.originalname ∧
      res = resJson (.json (.obj
        [("message", .str "File uploaded successfully"),
         ("filename", .str name),
         ("originalName", .str p.file.originalname),
         ("url", .str ("/uploads/" ++ name)),
         ("size", .num p.content.length)])) ∧
      (postUpload lib envSecret nowMs k dir req).2
        = some (writeFile name p.content (ensureDirSync dir)) := by
  unfold postUpload at hres ⊢
  cases hauth : authenticateToken lib envSecret (nowMs / 1000) req.authorization with
  | reject r =>
    simp only [hauth, RouteOutcome.respond.injEq] at hres
    subst hres
    rcases authenticateToken_reject_status _ _ _ _ _ hauth with h | h <;> omega
  | next user =>
    simp only [hauth] at hres ⊢
    cases hup : (uploadSingle nowMs k dir req.part).1 with
    | error msg =>
      have hpair : uploadSingle nowMs k dir req.part
          = (.error msg, (uploadSingle nowMs k dir req.part).2) := by
        rw [← hup]
      rw [hpair] at hres
      simp at hres
    | ok file =>
      have hpair : uploadSingle nowMs k dir req.part
          = (.ok file, (uploadSingle nowMs k dir req.part).2) := by
        rw [← hup]
      cases file with
      | none =>
        rw [hpair] at hres
        simp only [RouteOutcome.respond.injEq] at hres
        subst hres
        simp [postUploadHandler, resError] at hstatus
      | some sf =>
        obtain ⟨p, hp, _, hsf, hdir⟩ := uploadSingle_ok_some nowMs k dir req.part sf hup
        have hform : storageFilename nowMs k p.file
            = p.file.fieldname ++ "-" ++ toString nowMs ++ "-" ++ toString (randomSuffix k)
                ++ extname p.file.originalname := by
          simp only [storageFilename, uniqueSuffix, String.append_assoc]
        refine ⟨p, randomSuffix k, storageFilename nowMs k p.file, hp,
          randomSuffix_le k hk, hform, ?_, ?_⟩
        · rw [hpair] at hres
          simp only [RouteOutcome.respond.injEq] at hres
          rw [← hres, hsf]
          rfl
        · rw [hpair]
          exact hdir

/-- Witness of C14: `demoAdmin` uploads `photo.png` at millisecond 2000000 with the draw
`7 / 2 ^ 53`, which rounds to 0. -/
theorem upload_filename_and_url_witness :
    ∃ p n name,
      (UploadRequest.mk (some ("Bearer " ++ demoToken)) (some demoPart)).part = some p ∧
      n ≤ 10 ^ 9 ∧
      name = p.file.fieldname ++ "-" ++ toString 2000000 ++ "-" ++ toString n
               ++ extname p.file.originalname ∧
      resJson (.json (.obj
        [("message", .str "File uploaded successfully"),
         ("filename", .str "file-2000000-0.png"),
         ("originalName", .str "photo.png"),
         ("url", .str "/uploads/file-2000000-0.png"),
         ("size", .num 3)]))
        = resJson (.json (.obj
        [("message", .str "File uploaded successfully"),
         ("filename", .str name),
         ("originalName", .str p.file.originalname),
         ("url", .str ("/uploads/" ++ name)),
         ("size", .num p.content.length)])) ∧
      (postUpload demoCrypto none 2000000 7 none
          (UploadRequest.mk (some ("Bearer " ++ demoToken)) (some demoPart))).2
        = some (writeFile name p.content (ensureDirSync none)) :=
  upload_filename_and_url demoCrypto none 2000000 7 none
    (UploadRequest.mk (some ("Bearer " ++ demoToken)) (some demoPart))
    (resJson (.json (.obj
        [("message", .str "File uploaded successfully"),
         ("filename", .str "file-2000000-0.png"),
         ("originalName", .str "photo.png"),
         ("url", .str "/uploads/file-2000000-0.png"),
         ("size", .num 3)])))
    (by decide) (by rfl) (by rfl)

theorem uploadSingle_too_large (nowMs k : Nat) (dir : UploadDir) (p : FilePart)
    (hname : p.file.originalname ≠ "") (hfield : p.file.fieldname = "file")
    (hfilter : fileFilter p.file = .accept)
    (hsize : withinFileSizeLimit p.content.length = false) :
    uploadSingle nowMs k dir (some p)
      = (.error "File too large",
         some (removeFile (storageFilename nowMs k p.file) (ensureDirSync dir))) := by
  simp [uploadSingle, hname, hfield, hfilter, hsize]

/-- C15, as stated, fails at the ceiling itself: `photo.png` with exactly 10485760 bytes,
a size that is "at most 10485760", is not within the limit; the upload ends in
"File too large" and no file is kept. -/
theorem upload_of_exactly_the_limit_is_refused :
    fileSizeLimit = 10485760 ∧
    demoLargePart.content.length = 10485760 ∧
    uploadSingle 2000000 7 none (some demoLargePart) = (.error "File too large", some []) := by
  have hlen : demoLargePart.content.length = 10485760 :=
    List.length_replicate fileSizeLimit 0
  have hfile : demoLargePart.file = demoPart.file := rfl
  refine ⟨by decide, hlen, ?_⟩
  rw [uploadSingle_too_large 2000000 7 none demoLargePart
    (by rw [hfile]; decide) (by rw [hfile]; decide) (by rw [hfile]; decide)
    (by rw [hlen]; decide), hfile]
  rfl

/-- C15, amended: the configured ceiling is 10 * 1024 * 1024 = 10485760 bytes, and an
upload that passes the field-name and file-type checks is stored exactly when its size is
below 10485760 bytes; with 10485760 bytes or more it ends in "File too large". -/
theorem file_size_limit_is_ten_mebibytes (nowMs k : Nat) (dir : UploadDir) (p : FilePart)
    (hname : p.file.originalname ≠ "") (hfield : p.file.fieldname = "file")
    (hfilter : fileFilter p.file = .accept) :
    fileSizeLimit = 10485760 ∧
    ((uploadSingle nowMs k dir (some p)).1
        = .ok (some { filename := storageFilename nowMs k p.file,
                      originalname := p.file.originalname, size := p.content.length })
      ↔ p.content.length < 10485760) ∧
    ((uploadSingle nowMs k dir (some p)).1 = .error "File too large"
      ↔ 10485760 ≤ p.content.length) := by
  have hlim : fileSizeLimit = 10485760 := by decide
  refine ⟨hlim, ?_⟩
  by_cases hlt : p.content.length < 10485760
  · have hsize : withinFileSizeLimit p.content.length = true := by
      simp [withinFileSizeLimit, hlim, hlt]
    rw [uploadSingle_accepted nowMs k dir p hname hfield hfilter hsize]
    refine ⟨⟨fun _ => hlt, fun _ => rfl⟩, ⟨fun h => ?_, fun h => ?_⟩⟩
    · cases h
    · omega
  · have hsize : withinFileSizeLimit p.content.length = false := by
      simp only [withinFileSizeLimit, hlim, decide_eq_false_iff_not]
      exact hlt
    rw [uploadSingle_too_large nowMs k dir p hname hfield hfilter hsize]
    refine ⟨⟨fun h => ?_, fun h => absurd h hlt⟩, ⟨fun _ => by omega, fun _ => rfl⟩⟩
    cases h

/-- Witness of C15 amended: the three bytes of `photo.png` are below the ceiling, and the
file is stored. -/
theorem file_size_limit_is_ten_mebibytes_witness :
    (uploadSingle 2000000 7 none (some demoPart)).1
        = .ok (some { filename := storageFilename 2000000 7 demoPart.file,
                      originalname := demoPart.file.originalname,
                      size := demoPart.content.length })
      ↔ demoPart.content.length < 10485760 :=
  (file_size_limit_is_ten_mebibytes 2000000 7 none demoPart (by decide) (by decide)
    (by decide)).2.1

/-- C16: when the guard rejects an upload request (no token, or a token that fails
verification), the route ends with the guard's response and the upload directory is
exactly as before: not created when it was absent, and with the same files otherwise. -/
theorem upload_rejected_before_storage (lib : Crypto) (envSecret : Option String)
    (nowMs k : Nat) (dir : UploadDir) (req : UploadRequest) (res : Response)
    (hrej : authenticateToken lib envSecret (nowMs / 1000) req.authorization = .reject res) :
    postUpload lib envSecret nowMs k dir req = (.respond res, dir) := by
  simp [postUpload, hrej]

/-- Witness of C16: an upload without a token while `uploads/` does not exist yet. -/
theorem upload_rejected_before_storage_witness :
    postUpload demoCrypto none 2000000 7 none
        (UploadRequest.mk none (some demoPart))
      = (.respond (resError 401 "Access token required"), none) :=
  upload_rejected_before_storage demoCrypto none 2000000 7 none
    (UploadRequest.mk none (some demoPart)) (resError 401 "Access token required") (by rfl)

/-! ## Initialization -/

theorem initializeDefaultContent_missing (disk : Disk)
    (hc : disk.contentFile = .missing) (hw : disk.writable = true) :
    initializeDefaultContent disk = some { disk with contentFile := .holds defaultContent } := by
  simp [initializeDefaultContent, hc, existsSync, writeJsonSync, hw]

theorem initializeDefaultContent_existing (disk : Disk)
    (hc : existsSync disk.contentFile = true) :
    initializeDefaultContent disk = some disk := by
  simp [initializeDefaultContent, hc]

theorem initializeDefaultUser_missing (bcryptHash : BcryptHash) (salt : Nat) (disk : Disk)
    (hu : disk.usersFile = .missing) (hw : disk.writable = true) :
    initializeDefaultUser bcryptHash salt disk
      = some { disk with usersFile := .holds (defaultUsers (bcryptHash "admin123" 10 salt)) } := by
  simp [initializeDefaultUser, hu, existsSync, writeUsersJsonSync, hw]

theorem initializeDefaultUser_existing (bcryptHash : BcryptHash) (salt : Nat) (disk : Disk)
    (hu : existsSync disk.usersFile = true) :
    initializeDefaultUser bcryptHash salt disk = some disk := by
  simp [initializeDefaultUser, hu]

theorem initializeDefaultUser_keeps_content (bcryptHash : BcryptHash) (salt : Nat)
    (disk : Disk) (hw : disk.writable = true) :
    ∃ disk', initializeDefaultUser bcryptHash salt disk = some disk' ∧
      disk'.contentFile = disk.contentFile := by
  cases hu : disk.usersFile with
  | missing => exact ⟨_, initializeDefaultUser_missing bcryptHash salt disk hu hw, rfl⟩
  | corrupt text =>
    exact ⟨disk, initializeDefaultUser_existing bcryptHash salt disk (by simp [hu, existsSync]),
      rfl⟩
  | holds users =>
    exact ⟨disk, initializeDefaultUser_existing bcryptHash salt disk (by simp [hu, existsSync]),
      rfl⟩

theorem startServer_fresh_content (bcryptHash : BcryptHash) (salt : Nat) (disk : Disk)
    (hc : disk.contentFile = .missing) (hw : disk.writable = true) :
    ∃ disk', startServer bcryptHash salt disk = some disk' ∧
      disk'.contentFile = .holds defaultContent := by
  obtain ⟨disk', hd, hcontent⟩ := initializeDefaultUser_keeps_content bcryptHash salt
    { disk with contentFile := .holds defaultContent } hw
  refine ⟨disk', ?_, hcontent⟩
  simp only [startServer, initializeDefaultContent_missing disk hc hw]
  exact hd

theorem getContentSection_of_holds (disk : Disk) (doc : Doc) (name : String) (v : JVal)
    (hdoc : disk.contentFile = .holds doc) (hlookup : doc.lookup name = some v)
    (htruthy : v.truthy = true) :
    getContentSection disk name = resJson (.json v) := by
  simp [getContentSection, getContent, readJsonSync, hdoc, getProp, hlookup, JsVal.truthy,
    htruthy]

/-- C17: after a boot that finds no content file (and can write), reading section `hero`
answers 200 with an object whose `name` is "Rahul Thakur" and whose `title` is
".NET Angular Developer & AI Engineer". -/
theorem default_boot_hero (bcryptHash : BcryptHash) (salt : Nat) (disk : Disk)
    (hc : disk.contentFile = .missing) (hw : disk.writable = true) :
    ∃ disk' hero,
      startServer bcryptHash salt disk = some disk' ∧
      getContentSection disk' "hero" = resJson (.json (.obj hero)) ∧
      (resJson (.json (.obj hero))).status = 200 ∧
      hero.lookup "name" = some (.str "Rahul Thakur") ∧
      hero.lookup "title" = some (.str ".NET Angular Developer & AI Engineer") := by
  obtain ⟨disk', hstart, hdoc⟩ := startServer_fresh_content bcryptHash salt disk hc hw
  refine ⟨disk', _, hstart,
    getContentSection_of_holds disk' defaultContent "hero" _ hdoc rfl rfl, rfl, rfl, rfl⟩

/-- Witness of C17: the boot of `freshDisk`. -/
theorem default_boot_hero_witness :
    ∃ disk' hero,
      startServer demoBcryptHash 0 freshDisk = some disk' ∧
      getContentSection disk' "hero" = resJson (.json (.obj hero)) ∧
      (resJson (.json (.obj hero))).status = 200 ∧
      hero.lookup "name" = some (.str "Rahul Thakur") ∧
      hero.lookup "title" = some (.str ".NET Angular Developer & AI Engineer") :=
  default_boot_hero demoBcryptHash 0 freshDisk rfl rfl

/-- C18: a boot that finds no user file (and can write) leaves a user file with exactly
one record: id 1, username `admin`, role `admin`, and as password the value `bcrypt.hash`
returned for `admin123`, which is not the plaintext; a login with `admin` / `admin123`
afterwards answers 200.  Assumed of `bcryptjs`: the hash differs from the plaintext and
`bcrypt.compare` accepts the plaintext against it. -/
theorem default_boot_admin (lib : Crypto) (envSecret : Option String) (now : Nat)
    (bcryptHash : BcryptHash) (salt : Nat) (disk : Disk)
    (hu : disk.usersFile = .missing) (hw : disk.writable = true)
    (hhash : bcryptHash "admin123" 10 salt ≠ "admin123")
    (hcheck : lib.bcryptCheck "admin123" (bcryptHash "admin123" 10 salt) = true) :
    ∃ disk' user,
      startServer bcryptHash salt disk = some disk' ∧
      disk'.usersFile = .holds [user] ∧
      user.id = 1 ∧ user.username = "admin" ∧ user.role = "admin" ∧
      user.password = bcryptHash "admin123" 10 salt ∧
      user.password ≠ "admin123" ∧
      (postAuthLogin lib envSecret now disk'
        (.obj [("username", .str "admin"), ("password", .str "admin123")])).status = 200 := by
  have hinit : ∃ d, initializeDefaultContent disk = some d ∧ d.usersFile = .missing ∧
      d.writable = true := by
    cases hc : disk.contentFile with
    | missing => exact ⟨_, initializeDefaultContent_missing disk hc hw, hu, hw⟩
    | corrupt text =>
      exact ⟨disk, initializeDefaultContent_existing disk (by simp [hc, existsSync]), hu, hw⟩
    | holds doc =>
      exact ⟨disk, initializeDefaultContent_existing disk (by simp [hc, existsSync]), hu, hw⟩
  obtain ⟨d, hd, hdu, hdw⟩ := hinit
  refine ⟨(⟨d.contentFile, .holds (defaultUsers (bcryptHash "admin123" 10 salt)),
      d.writable⟩ : Disk),
    (⟨1, "admin", "admin@rahulthakur.dev", bcryptHash "admin123" 10 salt, "admin"⟩ : User),
    ?_, rfl, rfl, rfl, rfl, rfl, hhash, ?_⟩
  · simp only [startServer, hd]
    exact initializeDefaultUser_missing bcryptHash salt d hdu hdw
  · simp [postAuthLogin, loginTry, bodyField, List.lookup, readJsonSync, defaultUsers,
      List.find?, strictEqStr, bcryptCompare, hcheck, jwtSign, timespan_24h, resJson]

/-- Witness of C18: the boot of `freshDisk` with the example hash. -/
theorem default_boot_admin_witness :
    ∃ disk' user,
      startServer demoBcryptHash 0 freshDisk = some disk' ∧
      disk'.usersFile = .holds [user] ∧
      user.id = 1 ∧ user.username = "admin" ∧ user.role = "admin" ∧
      user.password = demoBcryptHash "admin123" 10 0 ∧
      user.password ≠ "admin123" ∧
      (postAuthLogin demoCrypto none 1000 disk'
        (.obj [("username", .str "admin"), ("password", .str "admin123")])).status = 200 :=
  default_boot_admin demoCrypto none 1000 demoBcryptHash 0 freshDisk rfl rfl
    (by decide) (by decide)

theorem startServer_result_exists (bcryptHash : BcryptHash) (salt : Nat) (disk disk' : Disk)
    (h : startServer bcryptHash salt disk = some disk') :
    existsSync disk'.contentFile = true ∧ existsSync disk'.usersFile = true := by
  obtain ⟨c, u, w⟩ := disk
  cases c <;> cases u <;> cases w <;>
    simp [startServer, initializeDefaultContent, initializeDefaultUser, existsSync,
      writeJsonSync, writeUsersJsonSync] at h <;>
    subst h <;> exact ⟨rfl, rfl⟩

/-- C19: an existing content file and an existing user file, whether they hold data or
text that does not parse, are left exactly as they are by `initializeDefaultContent` and
`initializeDefaultUser`; and a second run of the initialization (whatever salt it would
draw) leaves the state the first run produced. -/
theorem initialization_idempotent (bcryptHash : BcryptHash) (salt salt' : Nat) (disk : Disk) :
    (∀ doc, initializeDefaultContent { disk with contentFile := .holds doc }
      = some { disk with contentFile := .holds doc }) ∧
    (∀ text, initializeDefaultContent { disk with contentFile := .corrupt text }
      = some { disk with contentFile := .corrupt text }) ∧
    (∀ users, initializeDefaultUser bcryptHash salt { disk with usersFile := .holds users }
      = some { disk with usersFile := .holds users }) ∧
    (∀ text, initializeDefaultUser bcryptHash salt { disk with usersFile := .corrupt text }
      = some { disk with usersFile := .corrupt text }) ∧
    (startServer bcryptHash salt disk).bind (startServer bcryptHash salt')
      = startServer bcryptHash salt disk := by
  refine ⟨fun doc => rfl, fun text => rfl, fun users => rfl, fun text => rfl, ?_⟩
  cases h : startServer bcryptHash salt disk with
  | none => rfl
  | some disk' =>
    obtain ⟨hc, hu⟩ := startServer_result_exists bcryptHash salt disk disk' h
    simp only [Option.some_bind, startServer, initializeDefaultContent_existing disk' hc,
      initializeDefaultUser_existing bcryptHash salt' disk' hu]

/-- C20, as stated, fails: `settings` is not a key of the default document, and after the
boot of `freshDisk` reading it is answered 404. -/
theorem default_boot_settings_not_found :
    defaultContent.lookup "settings" = none ∧
    (startServer demoBcryptHash 0 freshDisk).map (fun d => getContentSection d "settings")
      = some (resError 404 "Section not found") := by
  refine ⟨by rfl, by rfl⟩

/-- C20, amended: after a boot that finds no content file (and can write), each of the
seven names hero, about, skills, projects, experience, testimonials and contact is a key
of the content document, and reading it answers 200 with that key's value. -/
theorem default_boot_seven_sections (bcryptHash : BcryptHash) (salt : Nat) (disk : Disk)
    (hc : disk.contentFile = .missing) (hw : disk.writable = true) :
    ∃ disk',
      startServer bcryptHash salt disk = some disk' ∧
      ∀ name ∈ ["hero", "about", "skills", "projects", "experience", "testimonials",
                "contact"],
        ∃ v, defaultContent.lookup name = some v ∧
          getContentSection disk' name = resJson (.json v) ∧
          (getContentSection disk' name).status = 200 := by
  obtain ⟨disk', hstart, hdoc⟩ := startServer_fresh_content bcryptHash salt disk hc hw
  refine ⟨disk', hstart, ?_⟩
  intro name hname
  simp only [List.mem_cons, List.mem_singleton, List.not_mem_nil, or_false] at hname
  have read : ∀ (name : String) (v : JVal), defaultContent.lookup name = some v →
      v.truthy = true →
      ∃ v, defaultContent.lookup name = some v ∧
        getContentSection disk' name = resJson (.json v) ∧
        (getContentSection disk' name).status = 200 := by
    intro name v hl ht
    have hget := getContentSection_of_holds disk' defaultContent name v hdoc hl ht
    exact ⟨v, hl, hget, by rw [hget]; rfl⟩
  rcases hname with rfl | rfl | rfl | rfl | rfl | rfl | rfl
  · exact read "hero" ((defaultContent.lookup "hero").getD .null) rfl rfl
  · exact read "about" ((defaultContent.lookup "about").getD .null) rfl rfl
  · exact read "skills" ((defaultContent.lookup "skills").getD .null) rfl rfl
  · exact read "projects" ((defaultContent.lookup "projects").getD .null) rfl rfl
  · exact read "experience" ((defaultContent.lookup "experience").getD .null) rfl rfl
  · exact read "testimonials" ((defaultContent.lookup "testimonials").getD .null) rfl rfl
  · exact read "contact" ((defaultContent.lookup "contact").getD .null) rfl rfl

/-- Witness of C20 amended: the boot of `freshDisk`. -/
theorem default_boot_seven_sections_witness :
    ∃ disk',
      startServer demoBcryptHash 0 freshDisk = some disk' ∧
      ∀ name ∈ ["hero", "about", "skills", "projects", "experience", "testimonials",
                "contact"],
        ∃ v, defaultContent.lookup name = some v ∧
          getContentSection disk' name = resJson (.json v) ∧
          (getContentSection disk' name).status = 200 :=
  default_boot_seven_sections demoBcryptHash 0 freshDisk rfl rfl

/-! ## Content routes: failures of the content file -/

/-- C21: when reading the content file throws (the file is missing or does not parse),
`getContent` returns the empty object, and `GET /api/content` answers 200 with the empty
document. -/
theorem getContent_falls_back_to_empty (disk : Disk)
    (hfail : readJsonSync disk.contentFile = none) :
    getContent disk = { own := [], proto := .objectPrototype } ∧
    getContentAll disk = { status := 200, body := some (.obj []) } := by
  simp [getContent, getContentAll, hfail, resJson, stringifyTop]

/-- Witness of C21: a content file whose text is not JSON. -/
theorem getContent_falls_back_to_empty_witness :
    getContent { contentFile := .corrupt "not json", usersFile := .missing, writable := true }
      = { own := [], proto := .objectPrototype } ∧
    getContentAll { contentFile := .corrupt "not json", usersFile := .missing, writable := true }
      = { status := 200, body := some (.obj []) } :=
  getContent_falls_back_to_empty
    { contentFile := .corrupt "not json", usersFile := .missing, writable := true } rfl

theorem putContentSectionHandler_write_fails (disk : Disk) (k : String) (v : JVal)
    (hw : disk.writable = false) :
    putContentSectionHandler disk k v = (resError 500 "Failed to save content", disk) := by
  simp [putContentSectionHandler, saveContent, writeJsonSync, hw]

/-- The part of C22 that holds: for a section name other than `__proto__`, an authorized
write is answered with the success object whose `data` is the request body when the
write-back goes through, and with 500 and an unchanged data directory when it fails. -/
theorem put_response_by_write_back (lib : Crypto) (envSecret : Option String) (now : Nat)
    (disk : Disk) (auth : Option String) (user : Claims) (k : String) (v : JVal)
    (hauth : authenticateToken lib envSecret now auth = .next user)
    (hk : k ≠ "__proto__") :
    (disk.writable = true →
      (putContentSection lib envSecret now disk
          { authorization := auth, sectionName := k, body := v }).1
        = resJson (.json (.obj [("message", .str "Content updated successfully"),
                                ("data", v)]))) ∧
    (disk.writable = false →
      putContentSection lib envSecret now disk
          { authorization := auth, sectionName := k, body := v }
        = (resError 500 "Failed to save content", disk)) := by
  have hput : putContentSection lib envSecret now disk
        { authorization := auth, sectionName := k, body := v }
      = putContentSectionHandler disk k v := by
    simp [putContentSection, hauth]
  rw [hput]
  exact ⟨fun hw => by rw [putContentSectionHandler_stores disk k v hk hw],
    fun hw => putContentSectionHandler_write_fails disk k v hw⟩

/-- C22 at the failing input: an authorized `PUT /api/content/__proto__` whose body is
the object `{"__proto__": 5}` is answered 200 with `data` equal to 5, not to the request
body, although the write-back went through. -/
theorem put_proto_section_data_differs_from_body :
    (putContentSection demoCrypto none 2000 demoDisk
        { authorization := some ("Bearer " ++ demoToken), sectionName := "__proto__",
          body := .obj [("__proto__", .num 5)] }).1
      = resJson (.json (.obj [("message", .str "Content updated successfully"),
                              ("data", .num 5)])) ∧
    (saveContent demoDisk
        (setProp (getContent demoDisk) "__proto__" (.obj [("__proto__", .num 5)]))).1
      = true := by
  refine ⟨by rfl, by rfl⟩

/-! ## Concurrent writes -/

theorem runTasks_two_writes (disk : Disk) (a b : WriteTask)
    (hne : a.sectionName ≠ b.sectionName)
    (ha : a.sectionName ≠ "__proto__") (hb : b.sectionName ≠ "__proto__")
    (hw : disk.writable = true) :
    ∃ doc, (runTasks disk [a, b]).contentFile = .holds doc ∧
      doc.lookup a.sectionName = some a.body ∧ doc.lookup b.sectionName = some b.body := by
  have h1 := putContentSectionHandler_stores disk a.sectionName a.body ha hw
  have h2 := putContentSectionHandler_stores
    (⟨.holds (assignOwn a.sectionName a.body (getContent disk).own), disk.usersFile,
      disk.writable⟩ : Disk) b.sectionName b.body hb hw
  refine ⟨assignOwn b.sectionName b.body (assignOwn a.sectionName a.body (getContent disk).own),
    ?_, ?_, ?_⟩
  · simp only [runTasks, h1, h2]
    rfl
  · rw [lookup_assignOwn_other _ _ _ _ hne, lookup_assignOwn_self]
  · exact lookup_assignOwn_self _ _ _

/-- The statement-by-statement body of the handler, run as one task, does what the
handler does: same data directory afterwards, same response, nothing left to run. -/
theorem runTask_putHandlerBody (disk : Disk) (r : InFlight) :
    (runTask disk r putHandlerBody).1
      = (putContentSectionHandler disk r.request.sectionName r.request.body).2 ∧
    (runTask disk r putHandlerBody).2.response
      = some (putContentSectionHandler disk r.request.sectionName r.request.body).1 ∧
    (runTask disk r putHandlerBody).2.remaining = [] ∧
    (runTask disk r putHandlerBody).2.request = r.request := by
  cases hw : disk.writable <;>
    simp [putHandlerBody, runTask, execStmt, putContentSectionHandler, saveContent,
      writeJsonSync, hw]

theorem runTask_finished (disk : Disk) (r : InFlight) (h : r.remaining = []) :
    runTask disk r r.remaining = (disk, r) := by
  rw [h]
  cases r
  simp_all [runTask]

theorem loopStep_first (st : LoopState) :
    (loopStep st false).disk = (runTask st.disk st.first st.first.remaining).1 ∧
    (loopStep st false).first = (runTask st.disk st.first st.first.remaining).2 ∧
    (loopStep st false).second = st.second :=
  ⟨rfl, rfl, rfl⟩

theorem loopStep_second (st : LoopState) :
    (loopStep st true).disk = (runTask st.disk st.second st.second.remaining).1 ∧
    (loopStep st true).first = st.first ∧
    (loopStep st true).second = (runTask st.disk st.second st.second.remaining).2 :=
  ⟨rfl, rfl, rfl⟩

theorem loopStep_serialised (disk : Disk) (a b : WriteTask) (st : LoopState) (pick : Bool)
    (h : Serialised disk a b st) : Serialised disk a b (loopStep st pick) := by
  obtain ⟨hra, hrb, hcase⟩ := h
  have hA := runTask_putHandlerBody st.disk st.first
  have hB := runTask_putHandlerBody st.disk st.second
  rw [hra] at hA
  rw [hrb] at hB
  cases pick with
  | false =>
    obtain ⟨hd, hf, hs⟩ := loopStep_first st
    unfold Serialised
    rw [hd, hf, hs]
    rcases hcase with ⟨h1, h2, h3⟩ | ⟨h1, h2, h3⟩ | ⟨h1, h2, h3⟩ | ⟨h1, h2, h3⟩
    · rw [h1]
      exact ⟨hA.2.2.2, hrb, Or.inr (Or.inl ⟨hA.2.2.1, h2, by
        rw [hA.1, h3]; simp only [runTasks]⟩)⟩
    · rw [runTask_finished st.disk st.first h1]
      exact ⟨hra, hrb, Or.inr (Or.inl ⟨h1, h2, h3⟩)⟩
    · rw [h1]
      exact ⟨hA.2.2.2, hrb, Or.inr (Or.inr (Or.inr ⟨hA.2.2.1, h2, Or.inr (by
        rw [hA.1, h3]; simp only [runTasks])⟩))⟩
    · rw [runTask_finished st.disk st.first h1]
      exact ⟨hra, hrb, Or.inr (Or.inr (Or.inr ⟨h1, h2, h3⟩))⟩
  | true =>
    obtain ⟨hd, hf, hs⟩ := loopStep_second st
    unfold Serialised
    rw [hd, hf, hs]
    rcases hcase with ⟨h1, h2, h3⟩ | ⟨h1, h2, h3⟩ | ⟨h1, h2, h3⟩ | ⟨h1, h2, h3⟩
    · rw [h2]
      exact ⟨hra, hB.2.2.2, Or.inr (Or.inr (Or.inl ⟨h1, hB.2.2.1, by
        rw [hB.1, h3]; simp only [runTasks]⟩))⟩
    · rw [h2]
      exact ⟨hra, hB.2.2.2, Or.inr (Or.inr (Or.inr ⟨h1, hB.2.2.1, Or.inl (by
        rw [hB.1, h3]; simp only [runTasks])⟩))⟩
    · rw [runTask_finished st.disk st.second h2]
      exact ⟨hra, hrb, Or.inr (Or.inr (Or.inl ⟨h1, h2, h3⟩))⟩
    · rw [runTask_finished st.disk st.second h2]
      exact ⟨hra, hrb, Or.inr (Or.inr (Or.inr ⟨h1, h2, h3⟩))⟩

theorem runSchedule_serialised (disk : Disk) (a b : WriteTask) (picks : List Bool)
    (st : LoopState) (h : Serialised disk a b st) :
    Serialised disk a b (runSchedule st picks) := by
  induction picks generalizing st with
  | nil => exact h
  | cons pick rest ih => exact ih (loopStep st pick) (loopStep_serialised disk a b st pick h)

/-- Whatever turns the event loop takes, once both requests have run the source's handler
to the end the data directory is the one that running the two handlers whole, in one of
the two orders, leaves behind: there is no schedule that interleaves the read of one
request with the write-back of the other. -/
theorem runSchedule_putHandlerBody (disk : Disk) (a b : WriteTask) (picks : List Bool)
    (hdone : (runSchedule (startTwo putHandlerBody disk a b) picks).bothDone) :
    (runSchedule (startTwo putHandlerBody disk a b) picks).disk = runTasks disk [a, b] ∨
    (runSchedule (startTwo putHandlerBody disk a b) picks).disk = runTasks disk [b, a] := by
  have hstart : Serialised disk a b (startTwo putHandlerBody disk a b) :=
    ⟨rfl, rfl, Or.inl ⟨rfl, rfl, rfl⟩⟩
  obtain ⟨_, _, hcase⟩ := runSchedule_serialised disk a b picks _ hstart
  obtain ⟨hd1, hd2⟩ := hdone
  rcases hcase with ⟨h1, _, _⟩ | ⟨_, h2, _⟩ | ⟨h1, _, _⟩ | ⟨_, _, h3⟩
  · rw [h1] at hd1
    exact absurd hd1 (by decide)
  · rw [h2] at hd2
    exact absurd hd2 (by decide)
  · rw [h1] at hd1
    exact absurd hd1 (by decide)
  · exact h3

theorem schedule_keeps_both (disk : Disk) (a b : WriteTask)
    (hne : a.sectionName ≠ b.sectionName)
    (ha : a.sectionName ≠ "__proto__") (hb : b.sectionName ≠ "__proto__")
    (hw : disk.writable = true) (picks : List Bool)
    (hdone : (runSchedule (startTwo putHandlerBody disk a b) picks).bothDone) :
    ∃ doc, (runSchedule (startTwo putHandlerBody disk a b) picks).disk.contentFile
        = .holds doc ∧
      doc.lookup a.sectionName = some a.body ∧ doc.lookup b.sectionName = some b.body := by
  rcases runSchedule_putHandlerBody disk a b picks hdone with h | h
  · rw [h]
    exact runTasks_two_writes disk a b hne ha hb hw
  · rw [h]
    obtain ⟨doc, hdoc, hb', ha'⟩ := runTasks_two_writes disk b a (Ne.symm hne) hb ha hw
    exact ⟨doc, hdoc, ha', hb'⟩

/-- What keeps both writes is that the source's handler body contains no `yield`: with a
body that hands control back between its read and its write-back, the event loop can run
the read of the second request before the write-back of the first, and the write-back
that comes last then discards the other change.  Here `hero` is written first and `about`
last, and `hero` is afterwards what it was before. -/
theorem yielding_body_can_lose_a_write :
    (runSchedule
        (startTwo yieldingHandlerBody demoDisk
          { sectionName := "hero", body := .obj [("name", .str "R")] }
          { sectionName := "about", body := .arr [] })
        [false, true, false, true]).bothDone ∧
    (getContent
        (runSchedule
          (startTwo yieldingHandlerBody demoDisk
            { sectionName := "hero", body := .obj [("name", .str "R")] }
            { sectionName := "about", body := .arr [] })
          [false, true, false, true]).disk).own.lookup "hero"
      = defaultContent.lookup "hero" ∧
    (getContent
        (runSchedule
          (startTwo yieldingHandlerBody demoDisk
            { sectionName := "hero", body := .obj [("name", .str "R")] }
            { sectionName := "about", body := .arr [] })
          [false, true, false, true]).disk).own.lookup "about"
      = some (.arr []) := by
  refine ⟨⟨by rfl, by rfl⟩, by rfl, by rfl⟩

/-- C23, as stated, fails: there is no data directory, no pair of writes to two different
sections and no order of turns of the event loop after which both handlers have finished
and the stored document lacks one of the two changes. -/
theorem no_schedule_discards_a_write :
    ¬ ∃ (disk : Disk) (a b : WriteTask) (picks : List Bool),
        a.sectionName ≠ b.sectionName ∧
        a.sectionName ≠ "__proto__" ∧ b.sectionName ≠ "__proto__" ∧
        disk.writable = true ∧
        (runSchedule (startTwo putHandlerBody disk a b) picks).bothDone ∧
        ¬ ∃ doc, (runSchedule (startTwo putHandlerBody disk a b) picks).disk.contentFile
              = .holds doc ∧
            doc.lookup a.sectionName = some a.body ∧
            doc.lookup b.sectionName = some b.body := by
  rintro ⟨disk, a, b, picks, hne, ha, hb, hw, hdone, hlost⟩
  exact hlost (schedule_keeps_both disk a b hne ha hb hw picks hdone)

/-- C23, amended: within the server process, two concurrent writes to different sections
(neither named `__proto__`) cannot interleave their read-modify-write, because the handler
runs from its read to its write-back without handing control back to the event loop; in
whatever order the event loop takes its turns, once both handlers have finished the stored
document holds both changes, and it is the document that one of the two sequential orders
of the handlers leaves behind. -/
theorem concurrent_writes_both_stored (disk : Disk) (a b : WriteTask)
    (hne : a.sectionName ≠ b.sectionName)
    (ha : a.sectionName ≠ "__proto__") (hb : b.sectionName ≠ "__proto__")
    (hw : disk.writable = true) (picks : List Bool)
    (hdone : (runSchedule (startTwo putHandlerBody disk a b) picks).bothDone) :
    ((runSchedule (startTwo putHandlerBody disk a b) picks).disk = runTasks disk [a, b] ∨
     (runSchedule (startTwo putHandlerBody disk a b) picks).disk = runTasks disk [b, a]) ∧
    ∃ doc, (runSchedule (startTwo putHandlerBody disk a b) picks).disk.contentFile
        = .holds doc ∧
      doc.lookup a.sectionName = some a.body ∧
      doc.lookup b.sectionName = some b.body :=
  ⟨runSchedule_putHandlerBody disk a b picks hdone,
   schedule_keeps_both disk a b hne ha hb hw picks hdone⟩

/-- Witness of C23 amended: writes to `hero` and to `about` of the default document; the
event loop turns to the second request first, then to the first, then to the second
again, which has nothing left to run. -/
theorem concurrent_writes_both_stored_witness :
    ∃ doc,
      (runSchedule
        (startTwo putHandlerBody demoDisk
          { sectionName := "hero", body := .obj [("name", .str "R")] }
          { sectionName := "about", body := .arr [] })
        [true, false, true]).disk.contentFile = .holds doc ∧
      doc.lookup "hero" = some (.obj [("name", .str "R")]) ∧
      doc.lookup "about" = some (.arr []) :=
  (concurrent_writes_both_stored demoDisk
    { sectionName := "hero", body := .obj [("name", .str "R")] }
    { sectionName := "about", body := .arr [] } (by decide) (by decide) (by decide) rfl
    [true, false, true] ⟨by rfl, by rfl⟩).2

/-! ## The authentication guard: the shape of the header -/

/-- C24, as stated, fails: a header with the scheme word `Basic` and a valid token is let
through, and so is a header with more text after the token. -/
theorem guard_ignores_scheme_word :
    authenticateToken demoCrypto none 2000 (some ("Basic " ++ demoToken))
      = .next (⟨1, "admin", "admin", 1000, 87400⟩ : Claims) ∧
    authenticateToken demoCrypto none 2000 (some ("Bearer " ++ demoToken ++ " more"))
      = .next (⟨1, "admin", "admin", 1000, 87400⟩ : Claims) := by
  refine ⟨by rfl, by rfl⟩

/-- C24, amended: the guard lets a request through exactly when the second
blank-separated field of its `Authorization` header is a non-empty token that verifies;
the scheme word in front of it is not examined.  A header without a second field, or with
an empty one, is answered 401. -/
theorem guard_passes_iff_second_field_verifies (lib : Crypto) (envSecret : Option String)
    (now : Nat) (auth : Option String) (user : Claims) :
    (authenticateToken lib envSecret now auth = .next user ↔
      ∃ header token, auth = some header ∧ (jsSplit ' ' header).get? 1 = some token ∧
        token ≠ "" ∧ jwtVerify lib token (JWT_SECRET envSecret) now = .ok user) ∧
    (∀ header, ((jsSplit ' ' header).get? 1 = none ∨ (jsSplit ' ' header).get? 1 = some "") →
      authenticateToken lib envSecret now (some header)
        = .reject (resError 401 "Access token required")) := by
  constructor
  · constructor
    · intro h
      cases auth with
      | none => simp [authenticateToken] at h
      | some header =>
        by_cases hempty : header = ""
        · simp [authenticateToken, hempty] at h
        · cases htok : (jsSplit ' ' header)[1]? with
          | none => simp [authenticateToken, hempty, htok] at h
          | some token =>
            by_cases htempty : token = ""
            · simp [authenticateToken, hempty, htok, htempty] at h
            · cases hv : jwtVerify lib token (JWT_SECRET envSecret) now with
              | error e => simp [authenticateToken, hempty, htok, htempty, hv] at h
              | ok u =>
                simp [authenticateToken, hempty, htok, htempty, hv] at h
                subst h
                exact ⟨header, token, rfl, by simpa using htok, htempty, hv⟩
    · rintro ⟨header, token, rfl, htok, hne, hv⟩
      exact authenticateToken_of_verify_ok lib envSecret now header token user htok hne hv
  · intro header h
    by_cases hempty : header = ""
    · simp [authenticateToken, hempty]
    · rcases h with h | h
      · have h' : (jsSplit ' ' header)[1]? = none := by simpa using h
        simp [authenticateToken, hempty, h']
      · have h' : (jsSplit ' ' header)[1]? = some "" := by simpa using h
        simp [authenticateToken, hempty, h']

/-! ## Login: what the response shows -/

theorem postAuthLogin_cases (lib : Crypto) (envSecret : Option String) (now : Nat)
    (disk : Disk) (body : JVal) :
    (∃ users username user,
      readJsonSync disk.usersFile = some users ∧
      bodyField body "username" = some username ∧
      users.find? (fun u => strictEqStr u.username username) = some user ∧
      postAuthLogin lib envSecret now disk body
        = resJson (.json (loginSuccessBody
            (lib.jwsEncode (⟨user.id, user.username, user.role, now, now + 86400⟩ : Claims)
              (JWT_SECRET envSecret)) user))) ∨
    postAuthLogin lib envSecret now disk body = resError 401 "Invalid credentials" ∨
    postAuthLogin lib envSecret now disk body = resError 500 "Server error" := by
  unfold postAuthLogin loginTry
  cases hu : bodyField body "username" with
  | none => simp
  | some username =>
    cases hp : bodyField body "password" with
    | none => simp
    | some password =>
      cases hr : readJsonSync disk.usersFile with
      | none => simp
      | some users =>
        cases hf : users.find? (fun u => strictEqStr u.username username) with
        | none => simp [hf]
        | some user =>
          cases hc : bcryptCompare lib password user.password with
          | none => simp [hf, hc]
          | some b =>
            cases b with
            | false => simp [hf, hc]
            | true =>
              left
              exact ⟨users, username, user, rfl, rfl, hf, by simp [hf, hc, jwtSign, timespan_24h]⟩

theorem find_related_or_none (R : User → User → Prop) (p : User → Bool)
    (hp : ∀ a b, R a b → p a = p b) (l l' : List User) (h : List.Forall₂ R l l') :
    (l.find? p = none ∧ l'.find? p = none) ∨
    ∃ a b, l.find? p = some a ∧ l'.find? p = some b ∧ R a b := by
  induction h with
  | nil => left; exact ⟨rfl, rfl⟩
  | @cons a0 b0 l0 l0' hab _ ih =>
    by_cases hpa : p a0 = true
    · have hpb : p b0 = true := by rw [← hp a0 b0 hab]; exact hpa
      right
      exact ⟨a0, b0, by simp [List.find?, hpa], by simp [List.find?, hpb], hab⟩
    · have hpa' : p a0 = false := by simpa using hpa
      have hpb : p b0 = false := by rw [← hp a0 b0 hab]; exact hpa'
      simpa only [List.find?, hpa', hpb] using ih

/-- C27: the login response does not depend on the stored password hashes.  Take two user
files that agree record by record on id, username, email and role, and whose hashes agree
on whether the supplied password matches (both match it, or neither does).  Then a login
request gets the very same response from both, whether it succeeds or fails.  And every
response is one of three: the token (signed over id, username and role) with a user
summary of exactly the fields id, username, email and role; the 401 error object with the
message "Invalid credentials"; the 500 error object with the message "Server error". -/
theorem login_response_hides_hash (lib : Crypto) (envSecret : Option String) (now : Nat)
    (disk disk' : Disk) (users users' : List User) (body : JVal)
    (hfile : disk.usersFile = .holds users) (hfile' : disk'.usersFile = .holds users')
    (hsame : List.Forall₂
      (fun a b => a.id = b.id ∧ a.username = b.username ∧ a.email = b.email ∧
        a.role = b.role ∧
        ∀ p, bodyField body "password" = some (some (.str p)) →
          lib.bcryptCheck p a.password = lib.bcryptCheck p b.password)
      users users') :
    postAuthLogin lib envSecret now disk body = postAuthLogin lib envSecret now disk' body ∧
    ((∃ user, user ∈ users ∧
        postAuthLogin lib envSecret now disk body
          = { status := 200,
              body := some (.obj
                [("token", .str (lib.jwsEncode
                    (⟨user.id, user.username, user.role, now, now + 86400⟩ : Claims)
                    (JWT_SECRET envSecret))),
                 ("user", .obj [("id", .num user.id), ("username", .str user.username),
                                ("email", .str user.email), ("role", .str user.role)])]) }) ∨
      postAuthLogin lib envSecret now disk body
        = { status := 401, body := some (.obj [("error", .str "Invalid credentials")]) } ∨
      postAuthLogin lib envSecret now disk body
        = { status := 500, body := some (.obj [("error", .str "Server error")]) }) := by
  constructor
  · unfold postAuthLogin loginTry
    cases hu : bodyField body "username" with
    | none => rfl
    | some username =>
      cases hpw : bodyField body "password" with
      | none => rfl
      | some password =>
        simp only [hfile, hfile', readJsonSync]
        rcases find_related_or_none _ (fun x => strictEqStr x.username username)
            (fun a b hab => by simp only [hab.2.1]) users users' hsame with
          ⟨h1, h2⟩ | ⟨u, u', h1, h2, hid, hname, hemail, hrole, hcheck⟩
        · simp only [h1, h2]
        · have hc : bcryptCompare lib password u.password
              = bcryptCompare lib password u'.password := by
            cases password with
            | none => rfl
            | some v =>
              cases v with
              | str p => simp only [bcryptCompare, hcheck p hpw]
              | null => rfl
              | bool _ => rfl
              | num _ => rfl
              | arr _ => rfl
              | obj _ => rfl
          simp only [h1, h2, hc, loginSuccessBody, hid, hname, hemail, hrole]
  · rcases postAuthLogin_cases lib envSecret now disk body with
      ⟨us, username, u, hr, _, hf, h⟩ | h | h
    · left
      rw [hfile] at hr
      simp only [readJsonSync, Option.some.injEq] at hr
      subst hr
      exact ⟨u, List.mem_of_find?_eq_some hf, h⟩
    · right; left; exact h
    · right; right; exact h

/-- Witness of C27: two user files whose only difference is the salt of the hash, and a
login with the right password. -/
theorem login_response_hides_hash_witness :
    postAuthLogin demoSaltedCrypto none 1000
        { contentFile := .missing,
          usersFile := .holds [⟨1, "admin", "admin@rahulthakur.dev", "salt-a.admin123", "admin"⟩],
          writable := true }
        (.obj [("username", .str "admin"), ("password", .str "admin123")])
      = postAuthLogin demoSaltedCrypto none 1000
        { contentFile := .missing,
          usersFile := .holds [⟨1, "admin", "admin@rahulthakur.dev", "salt-b.admin123", "admin"⟩],
          writable := true }
        (.obj [("username", .str "admin"), ("password", .str "admin123")]) :=
  (login_response_hides_hash demoSaltedCrypto none 1000
    { contentFile := .missing,
      usersFile := .holds [⟨1, "admin", "admin@rahulthakur.dev", "salt-a.admin123", "admin"⟩],
      writable := true }
    { contentFile := .missing,
      usersFile := .holds [⟨1, "admin", "admin@rahulthakur.dev", "salt-b.admin123", "admin"⟩],
      writable := true }
    [⟨1, "admin", "admin@rahulthakur.dev", "salt-a.admin123", "admin"⟩]
    [⟨1, "admin", "admin@rahulthakur.dev", "salt-b.admin123", "admin"⟩]
    (.obj [("username", .str "admin"), ("password", .str "admin123")])
    rfl rfl
    (List.Forall₂.cons
      ⟨rfl, rfl, rfl, rfl, fun p hp => by
        have hp' : p = "admin123" := by
          simp only [bodyField, List.lookup] at hp
          simpa using hp.symm
        subst hp'
        decide⟩
      List.Forall₂.nil)).1

/-- A login with a wrong password against the two user files of the witness: both answer
the same 401, in which neither hash appears. -/
theorem login_failure_same_for_both_hashes :
    postAuthLogin demoSaltedCrypto none 1000
        { contentFile := .missing,
          usersFile := .holds [⟨1, "admin", "admin@rahulthakur.dev", "salt-a.admin123", "admin"⟩],
          writable := true }
        (.obj [("username", .str "admin"), ("password", .str "guess")])
      = resError 401 "Invalid credentials" ∧
    postAuthLogin demoSaltedCrypto none 1000
        { contentFile := .missing,
          usersFile := .holds [⟨1, "admin", "admin@rahulthakur.dev", "salt-b.admin123", "admin"⟩],
          writable := true }
        (.obj [("username", .str "admin"), ("password", .str "guess")])
      = resError 401 "Invalid credentials" := by
  refine ⟨by rfl, by rfl⟩

/-! ## The admin client -/

/-- C25 at the failing inputs: with the development base URL, the content requests of the
about, skills, projects, testimonials, contact and settings editors go to
`/api/api/content/<section>`, which is not the server route; those of the hero and
experience editors go to `/api/content/<section>`. -/
theorem editor_request_urls :
    (∀ e ∈ [Editor.about, Editor.skills, Editor.projects, Editor.testimonials,
            Editor.contact, Editor.settings],
      e.requestUrl false "" = "http://localhost:12000/api/api/content/" ++ e.sectionName ∧
      e.requestUrl false "" ≠ contentRouteUrl false "" e.sectionName) ∧
    (∀ e ∈ [Editor.hero, Editor.experience],
      e.requestUrl false "" = contentRouteUrl false "" e.sectionName) := by
  refine ⟨by decide, by decide⟩

/-- C26 at the failing input: for an expired token the guard answers 403, and for a
malformed token as well; on that response the interceptor leaves the stored token, the
stored user and the location as they are.  Only the 401 given for a missing token clears
them and leads to the login page. -/
theorem interceptor_ignores_forbidden :
    authenticateToken demoCrypto none 90000 (some ("Bearer " ++ demoToken))
      = .reject (resError 403 "Invalid or expired token") ∧
    authenticateToken demoCrypto none 2000 (some "Bearer garbage")
      = .reject (resError 403 "Invalid or expired token") ∧
    interceptResponse demoClient (resError 403 "Invalid or expired token") = demoClient ∧
    demoClient.authToken = some demoToken ∧
    interceptResponse demoClient (resError 401 "Access token required")
      = { authToken := none, user := none, href := "/admin/login" } := by
  refine ⟨by rfl, by rfl, by decide, by rfl, by decide⟩

theorem fetchExperienceArray_of_saved (nowMs : Nat) (experiences : List JVal) :
    fetchExperienceArray nowMs (saveAllExperiencesBody experiences) = [] := rfl

/-- C28 at the failing input: the editor holds one experience; `saveAllExperiences`
sends it wrapped in an object under the key `experiences`, the authorized write is
answered 200, and `fetchExperienceContent` on the read that follows, finding an object
where it expects an array, loads the empty list. -/
theorem experience_roundtrip_loses_list :
    (putContentSection demoCrypto none 2000 demoDisk
        { authorization := some ("Bearer " ++ demoToken), sectionName := "experience",
          body := saveAllExperiencesBody [demoExperience] }).1.status = 200 ∧
    getContentSection
        (putContentSection demoCrypto none 2000 demoDisk
          { authorization := some ("Bearer " ++ demoToken), sectionName := "experience",
            body := saveAllExperiencesBody [demoExperience] }).2 "experience"
      = resJson (.json (.obj [("experiences", .arr [demoExperience])])) ∧
    fetchExperienceContent 5000
        (getContentSection
          (putContentSection demoCrypto none 2000 demoDisk
            { authorization := some ("Bearer " ++ demoToken), sectionName := "experience",
              body := saveAllExperiencesBody [demoExperience] }).2 "experience")
      = some [] ∧
    (some [] : Option (List JVal)) ≠ some [demoExperience] := by
  refine ⟨by decide, by rfl, by rfl, by simp⟩

/-! ## The admin client: skills editor -/

theorem saveAllSkillsBody_eq (skills : List Skill) :
    saveAllSkillsBody skills
      = .obj (skillCategories.map (fun category =>
          (category, JVal.arr ((skills.filter
            (fun skill => decide (skill.category = category))).map skillToSave)))) := by
  rfl

theorem ownProperty_skillToSave (s : Skill) :
    ownProperty (skillToSave s) "name" = s.name ∧
    ownProperty (skillToSave s) "level" = s.level ∧
    ownProperty (skillToSave s) "percentage" = s.percentage := by
  obtain ⟨id, category, name, level, percentage⟩ := s
  cases name <;> cases level <;> cases percentage <;>
    simp [skillToSave, definedFields, ownProperty, List.lookup]

theorem skillOfData_saved (newId : Nat) (c : String) (s : Skill) (v : JVal)
    (hp : s.percentage = some v) (hv : v.truthy = true) :
    skillOfData newId c (skillToSave s)
      = some (⟨newId, c, s.name, s.level, s.percentage⟩ : Skill) := by
  have hshape : skillOfData newId c (skillToSave s)
      = some (⟨newId, c, ownProperty (skillToSave s) "name",
          ownProperty (skillToSave s) "level",
          (match ownProperty (skillToSave s) "percentage" with
            | some v =>
              if v.truthy then some v
              else some (getLevelPercentage (ownProperty (skillToSave s) "level"))
            | none => some (getLevelPercentage (ownProperty (skillToSave s) "level")))⟩ :
          Skill) := rfl
  obtain ⟨h1, h2, h3⟩ := ownProperty_skillToSave s
  rw [hshape, h1, h2, h3, hp]
  simp [hv]

theorem skillsOfArray_saved (newId : Nat) (c : String) (g : List Skill)
    (h : ∀ s ∈ g, ∃ v, s.percentage = some v ∧ v.truthy = true) :
    skillsOfArray newId c (g.map skillToSave)
      = some (g.map (fun s => (⟨newId, c, s.name, s.level, s.percentage⟩ : Skill))) := by
  induction g with
  | nil => rfl
  | cons s rest ih =>
    obtain ⟨v, hp, hv⟩ := h s (by simp)
    have hrest := ih (fun x hx => h x (by simp [hx]))
    simp only [List.map_cons, skillsOfArray, skillOfData_saved newId c s v hp hv, hrest]

theorem skillsOfEntries_saved (newId : Nat) (cats : List String) (f : String → List Skill)
    (h : ∀ c ∈ cats, ∀ s ∈ f c, ∃ v, s.percentage = some v ∧ v.truthy = true) :
    skillsOfEntries newId (cats.map (fun c => (c, JVal.arr ((f c).map skillToSave))))
      = some (cats.flatMap (fun c =>
          (f c).map (fun s => (⟨newId, c, s.name, s.level, s.percentage⟩ : Skill)))) := by
  induction cats with
  | nil => rfl
  | cons c rest ih =>
    have hc := skillsOfArray_saved newId c (f c) (h c (by simp))
    have hrest := ih (fun x hx => h x (by simp [hx]))
    simp only [List.map_cons, skillsOfEntries, hc, hrest, List.flatMap_cons]

theorem flatMap_filter_cons_not_mem (cats : List String) (s : Skill) (rest : List Skill)
    (h : s.category ∉ cats) :
    cats.flatMap (fun c => (s :: rest).filter (fun x => decide (x.category = c)))
      = cats.flatMap (fun c => rest.filter (fun x => decide (x.category = c))) := by
  induction cats with
  | nil => rfl
  | cons c cs ih =>
    have hne : s.category ≠ c := fun e => h (by simp [e])
    have hcs : s.category ∉ cs := fun e => h (by simp [e])
    have hfil : (s :: rest).filter (fun x => decide (x.category = c))
        = rest.filter (fun x => decide (x.category = c)) := by
      simp [List.filter_cons, hne]
    rw [List.flatMap_cons, List.flatMap_cons, hfil, ih hcs]

theorem flatMap_filter_cons_perm (cats : List String) (hnd : cats.Nodup) (s : Skill)
    (rest : List Skill) (h : s.category ∈ cats) :
    List.Perm
      (cats.flatMap (fun c => (s :: rest).filter (fun x => decide (x.category = c))))
      (s :: cats.flatMap (fun c => rest.filter (fun x => decide (x.category = c)))) := by
  induction cats with
  | nil => simp at h
  | cons c cs ih =>
    rw [List.nodup_cons] at hnd
    by_cases hc : s.category = c
    · have hcs : s.category ∉ cs := by rw [hc]; exact hnd.1
      rw [List.flatMap_cons, List.flatMap_cons, flatMap_filter_cons_not_mem cs s rest hcs]
      simp [List.filter_cons, hc]
    · have hmem : s.category ∈ cs := by
        rcases List.mem_cons.mp h with e | e
        · exact absurd e hc
        · exact e
      rw [List.flatMap_cons, List.flatMap_cons]
      have hfil : (s :: rest).filter (fun x => decide (x.category = c))
          = rest.filter (fun x => decide (x.category = c)) := by
        simp [List.filter_cons, hc]
      rw [hfil]
      exact (List.Perm.append_left _ (ih hnd.2 hmem)).trans List.perm_middle

theorem flatMap_filter_perm (cats : List String) (hnd : cats.Nodup) (skills : List Skill)
    (h : ∀ s ∈ skills, s.category ∈ cats) :
    List.Perm (cats.flatMap (fun c => skills.filter (fun x => decide (x.category = c))))
      skills := by
  induction skills with
  | nil =>
    have hempty : ∀ cs : List String, cs.flatMap (fun c => ([] : List Skill).filter
        (fun x => decide (x.category = c))) = [] := by
      intro cs
      induction cs with
      | nil => rfl
      | cons c cs ih => rw [List.flatMap_cons, ih]; rfl
    rw [hempty cats]
  | cons s rest ih =>
    exact (flatMap_filter_cons_perm cats hnd s rest (h s (by simp))).trans
      (List.Perm.cons s (ih (fun x hx => h x (by simp [hx]))))

theorem map_entry_of_loaded (newId : Nat) (skills : List Skill) (cats : List String) :
    (cats.flatMap (fun c =>
        (skills.filter (fun x => decide (x.category = c))).map
          (fun s => (⟨newId, c, s.name, s.level, s.percentage⟩ : Skill)))).map
        (fun s : Skill => (s.category, s.name, s.level, s.percentage))
      = (cats.flatMap (fun c => skills.filter (fun x => decide (x.category = c)))).map
        (fun s : Skill => (s.category, s.name, s.level, s.percentage)) := by
  induction cats with
  | nil => rfl
  | cons c cs ih =>
    rw [List.flatMap_cons, List.flatMap_cons, List.map_append, List.map_append, ih,
      List.map_map]
    congr 1
    apply List.map_congr_left
    intro x hx
    have hc : x.category = c := by simpa using (List.mem_filter.mp hx).2
    simp [hc]

/-- C29: for every list of skills whose percentages hold a truthy value (a non-zero
number), the object `saveAllSkills` builds is converted back by `fetchSkillsContent`
without throwing, and the list it yields has, up to ids, the entries
(category, name, level, percentage) of the original skills grouped in the order of
`skillCategories`, each group in its original order; when every category is one of the
five, these are all the original entries, rearranged. -/
theorem skills_roundtrip (newId : Nat) (skills : List Skill)
    (hcat : ∀ s ∈ skills, s.category ∈ skillCategories)
    (hpct : ∀ s ∈ skills, ∃ v, s.percentage = some v ∧ v.truthy = true) :
    ∃ loaded,
      fetchSkillsArray newId (saveAllSkillsBody skills) = some loaded ∧
      loaded.map (fun s : Skill => (s.category, s.name, s.level, s.percentage))
        = (skillCategories.flatMap
            (fun c => skills.filter (fun x => decide (x.category = c)))).map
            (fun s : Skill => (s.category, s.name, s.level, s.percentage)) ∧
      List.Perm (loaded.map (fun s : Skill => (s.category, s.name, s.level, s.percentage)))
        (skills.map (fun s : Skill => (s.category, s.name, s.level, s.percentage))) := by
  have hload := skillsOfEntries_saved newId skillCategories
    (fun c => skills.filter (fun x => decide (x.category = c)))
    (fun c _ s hs => hpct s (List.mem_filter.mp hs).1)
  have hentries := map_entry_of_loaded newId skills skillCategories
  refine ⟨_, ?_, hentries, ?_⟩
  · rw [saveAllSkillsBody_eq]
    exact hload
  · rw [hentries]
    exact (flatMap_filter_perm skillCategories (by decide) skills hcat).map _

/-- Witness of C29: three skills, the first in the last category. -/
theorem skills_roundtrip_witness :
    ∃ loaded,
      fetchSkillsArray 0 (saveAllSkillsBody
          [⟨1, "Other", some (.str "Git"), some (.str "Expert"), some (.num 90)⟩,
           ⟨2, "Backend Development", some (.str "C#"), some (.str "Expert"), some (.num 90)⟩,
           ⟨3, "Other", some (.str "Docker"), some (.str "Advanced"), some (.num 75)⟩])
        = some loaded ∧
      loaded.map (fun s : Skill => (s.category, s.name, s.level, s.percentage))
        = (skillCategories.flatMap
            (fun c =>
              ([⟨1, "Other", some (.str "Git"), some (.str "Expert"), some (.num 90)⟩,
                ⟨2, "Backend Development", some (.str "C#"), some (.str "Expert"),
                  some (.num 90)⟩,
                ⟨3, "Other", some (.str "Docker"), some (.str "Advanced"),
                  some (.num 75)⟩] : List Skill).filter
                (fun x => decide (x.category = c)))).map
            (fun s : Skill => (s.category, s.name, s.level, s.percentage)) ∧
      List.Perm (loaded.map (fun s : Skill => (s.category, s.name, s.level, s.percentage)))
        (([⟨1, "Other", some (.str "Git"), some (.str "Expert"), some (.num 90)⟩,
           ⟨2, "Backend Development", some (.str "C#"), some (.str "Expert"), some (.num 90)⟩,
           ⟨3, "Other", some (.str "Docker"), some (.str "Advanced"), some (.num 75)⟩] :
            List Skill).map
          (fun s : Skill => (s.category, s.name, s.level, s.percentage))) :=
  skills_roundtrip 0
    [⟨1, "Other", some (.str "Git"), some (.str "Expert"), some (.num 90)⟩,
     ⟨2, "Backend Development", some (.str "C#"), some (.str "Expert"), some (.num 90)⟩,
     ⟨3, "Other", some (.str "Docker"), some (.str "Advanced"), some (.num 75)⟩]
    (by decide)
    (by
      intro s hs
      simp only [List.mem_cons, List.mem_singleton, List.not_mem_nil, or_false] at hs
      rcases hs with rfl | rfl | rfl <;> exact ⟨_, rfl, rfl⟩)

/-! ## The admin client: about editor -/

theorem jsSplitAux_append_sep (sep : Char) (p rest cur : List Char) (h : sep ∉ p) :
    jsSplitAux sep (p ++ sep :: rest) cur = (cur.reverse ++ p) :: jsSplitAux sep rest [] := by
  induction p generalizing cur with
  | nil => simp [jsSplitAux]
  | cons c cs ih =>
    have hc : c ≠ sep := fun e => h (by simp [e])
    have hr : sep ∉ cs := fun e => h (by simp [e])
    simp [jsSplitAux, hc, ih _ hr]

theorem jsSplitAux_ne_nil (sep : Char) (cs cur : List Char) : jsSplitAux sep cs cur ≠ [] := by
  induction cs generalizing cur with
  | nil => simp [jsSplitAux]
  | cons c rest ih =>
    by_cases hc : c = sep
    · simp [jsSplitAux, hc]
    · simp [jsSplitAux, hc, ih]

theorem jsSplitAux_joinChars (sep : Char) (parts : List (List Char)) (hne : parts ≠ [])
    (h : ∀ p ∈ parts, sep ∉ p) :
    jsSplitAux sep (joinChars [sep] parts) [] = parts := by
  induction parts with
  | nil => exact absurd rfl hne
  | cons p rest ih =>
    cases rest with
    | nil =>
      simp only [joinChars]
      rw [jsSplitAux_no_sep sep p [] (h p (by simp))]
      simp
    | cons q more =>
      have hp : sep ∉ p := h p (by simp)
      have hrest := ih (by simp) (fun x hx => h x (by simp [hx]))
      simp only [joinChars, List.append_assoc, List.singleton_append]
      rw [jsSplitAux_append_sep sep p _ [] hp, hrest]
      simp

theorem joinChars_jsSplitAux (sep : Char) (cs cur : List Char) :
    joinChars [sep] (jsSplitAux sep cs cur) = cur.reverse ++ cs := by
  induction cs generalizing cur with
  | nil => simp [jsSplitAux, joinChars]
  | cons c rest ih =>
    by_cases hc : c = sep
    · have hrest := ih []
      simp only [jsSplitAux, hc, if_true]
      cases hsplit : jsSplitAux sep rest [] with
      | nil => exact absurd hsplit (jsSplitAux_ne_nil sep rest [])
      | cons q more =>
        rw [hsplit] at hrest
        simp only [joinChars, hrest]
        simp
    · simp only [jsSplitAux, hc, if_false]
      rw [ih]
      simp

theorem trimChars_ne_nil (cs : List Char) (c : Char) (hc : c ∈ cs)
    (hnot : isTrimChar c = false) : trimChars cs ≠ [] := by
  have h1 : cs.dropWhile isTrimChar ≠ [] := by
    intro h
    have := List.dropWhile_eq_nil_iff.mp h c hc
    rw [hnot] at this
    exact absurd this (by decide)
  have hhead : isTrimChar ((cs.dropWhile isTrimChar).head h1) = false := by
    have := List.head_dropWhile_not isTrimChar cs h1
    simpa using this
  intro h
  unfold trimChars at h
  have h2 : (cs.dropWhile isTrimChar).reverse.dropWhile isTrimChar = [] := by
    simpa using h
  have hmem : (cs.dropWhile isTrimChar).head h1 ∈ (cs.dropWhile isTrimChar).reverse := by
    rw [List.mem_reverse]
    exact List.head_mem h1
  have := List.dropWhile_eq_nil_iff.mp h2 _ hmem
  rw [hhead] at this
  exact absurd this (by decide)

theorem trimChars_cons_blank (cs : List Char) : trimChars (' ' :: cs) = trimChars cs := by
  have h : isTrimChar ' ' = true := by decide
  simp [trimChars, List.dropWhile_cons, h]

theorem map_eq_self {α : Type} (f : α → α) (l : List α) (h : ∀ x ∈ l, f x = x) :
    l.map f = l := by
  induction l with
  | nil => rfl
  | cons a rest ih =>
    rw [List.map_cons, h a (by simp), ih (fun x hx => h x (by simp [hx]))]

theorem strength_line_data (s : Strength) :
    (s.title ++ ": " ++ s.description).data
      = s.title.data ++ ':' :: ' ' :: s.description.data := by
  have e : (": " : String).data = [':', ' '] := rfl
  simp [String.data_append, e]

theorem jsTrim_eq_self_iff (s : String) : jsTrim s = s ↔ trimChars s.data = s.data := by
  constructor
  · intro h
    have := congrArg String.data h
    simpa [jsTrim] using this
  · intro h
    simp [jsTrim, h]

theorem parseStrength_line (s : Strength) (hcolon : ':' ∉ s.title.data)
    (htitle : jsTrim s.title = s.title) (hdesc : jsTrim s.description = s.description) :
    parseStrength (s.title ++ ": " ++ s.description) = s := by
  have ht := (jsTrim_eq_self_iff _).mp htitle
  have hd := (jsTrim_eq_self_iff _).mp hdesc
  have hsplit : jsSplit ':' (s.title ++ ": " ++ s.description)
      = s.title :: (jsSplitAux ':' (' ' :: s.description.data) []).map String.mk := by
    simp only [jsSplit, strength_line_data,
      jsSplitAux_append_sep ':' s.title.data _ [] hcolon, List.map_cons]
    simp
  have hjoin : jsJoin ":" ((jsSplitAux ':' (' ' :: s.description.data) []).map String.mk)
      = String.mk (' ' :: s.description.data) := by
    have e : (":" : String).data = [':'] := rfl
    have hmap : ((jsSplitAux ':' (' ' :: s.description.data) []).map String.mk).map
        String.data = jsSplitAux ':' (' ' :: s.description.data) [] := by
      rw [List.map_map]
      exact map_eq_self _ _ (fun _ _ => rfl)
    simp only [jsJoin, e, hmap, joinChars_jsSplitAux]
    simp
  simp only [parseStrength, hsplit, hjoin, htitle]
  have hdesc' : jsTrim (String.mk (' ' :: s.description.data)) = s.description := by
    simp [jsTrim, trimChars_cons_blank, hd]
  rw [hdesc']

theorem strength_line_not_blank (s : Strength) :
    jsTrim (s.title ++ ": " ++ s.description) ≠ "" := by
  intro h
  have hdata := congrArg String.data h
  simp only [jsTrim, strength_line_data] at hdata
  exact trimChars_ne_nil _ ':' (by simp) (by decide) hdata

/-- C30: for every list of key strengths whose titles contain no colon and no newline,
whose descriptions contain no newline, and whose titles and descriptions are unchanged by
`trim` (no leading or trailing white space), formatting the list as `title: description`
lines and parsing those lines gives back the same list. -/
theorem strengths_roundtrip (l : List Strength)
    (hcolon : ∀ s ∈ l, ':' ∉ s.title.data)
    (hnl : ∀ s ∈ l, '\n' ∉ s.title.data ∧ '\n' ∉ s.description.data)
    (htrim : ∀ s ∈ l, jsTrim s.title = s.title ∧ jsTrim s.description = s.description) :
    parseStrengths (formatStrengths (some l)) = l := by
  cases l with
  | nil => decide
  | cons s0 rest =>
    have e : ("\n" : String).data = ['\n'] := rfl
    have hparts : ∀ p ∈ ((s0 :: rest).map
        (fun s => s.title ++ ": " ++ s.description)).map String.data, '\n' ∉ p := by
      intro p hp
      simp only [List.map_map, List.mem_map, Function.comp] at hp
      obtain ⟨s, hs, rfl⟩ := hp
      rw [strength_line_data]
      have := hnl s hs
      simp only [List.mem_append, List.mem_cons, not_or]
      exact ⟨this.1, by decide, by decide, this.2⟩
    have hsplit : jsSplit '\n' (formatStrengths (some (s0 :: rest)))
        = (s0 :: rest).map (fun s => s.title ++ ": " ++ s.description) := by
      simp only [formatStrengths, jsJoin, jsSplit, e]
      rw [jsSplitAux_joinChars '\n' _ (by simp) hparts, List.map_map]
      exact map_eq_self _ _ (fun _ _ => rfl)
    unfold parseStrengths
    rw [hsplit]
    have hfilter : ((s0 :: rest).map (fun s => s.title ++ ": " ++ s.description)).filter
        (fun s => decide (jsTrim s ≠ ""))
        = (s0 :: rest).map (fun s => s.title ++ ": " ++ s.description) := by
      rw [List.filter_eq_self]
      intro x hx
      simp only [List.mem_map] at hx
      obtain ⟨s, _, rfl⟩ := hx
      simpa using strength_line_not_blank s
    rw [hfilter, List.map_map]
    exact map_eq_self _ _
      (fun s hs => parseStrength_line s (hcolon s hs) (htrim s hs).1 (htrim s hs).2)

/-- Witness of C30: three strengths, one with a colon in its description, one with an
empty description, one empty altogether. -/
theorem strengths_roundtrip_witness :
    parseStrengths (formatStrengths (some
        [⟨"Speed", "fast: very"⟩, ⟨"Depth", ""⟩, ⟨"", ""⟩]))
      = [⟨"Speed", "fast: very"⟩, ⟨"Depth", ""⟩, ⟨"", ""⟩] :=
  strengths_roundtrip [⟨"Speed", "fast: very"⟩, ⟨"Depth", ""⟩, ⟨"", ""⟩]
    (by decide) (by decide) (by decide)

end CmsServer
